import Mathlib

/-
  Verification development for the zod-to-openapi generator.

  The embedding models `src/openapi-generator.ts` (class OpenAPIGenerator)
  and the `OpenApiGeneratorV30Specifics` class shipped in the same
  repository.  JavaScript runtime objects are modelled by the `JVal`
  inductive (ordered key/value field lists, with an explicit `undefV`
  value so that "key present with value undefined" is distinguishable
  from "key absent", exactly as in JavaScript).  The generator methods
  are translated as fuel-indexed state-passing functions: the `Nat` fuel
  argument only serves to make the recursion structural; on every input
  whose tree depth is below the supplied fuel the functions compute
  exactly what the TypeScript source computes.
-/

namespace ZodToOpenApi

/-- Model of a JavaScript runtime value as used by the generator's output
objects.  `undefV` models the JavaScript value `undefined`; an `obj` is an
ordered own-property list, so a key bound to `undefV` is distinguishable
from an absent key. -/
inductive JVal where
  | undefV : JVal
  | null : JVal
  | bool : Bool → JVal
  | num : Int → JVal
  | str : String → JVal
  | arr : List JVal → JVal
  | obj : List (String × JVal) → JVal

/-- lodash `isUndefined`. -/
def isUndefinedJ : JVal → Bool
  | .undefV => true
  | _ => false

/-- lodash `isNil` (matches both `undefined` and `null`). -/
def isNilJ : JVal → Bool
  | .undefV => true
  | .null => true
  | _ => false

/-- JavaScript property read `fields[key]`: the value of the first binding
of `key`, `none` when the key is absent. -/
def lookupField : List (String × JVal) → String → Option JVal
  | [], _ => none
  | (k, v) :: rest, key => if k = key then some v else lookupField rest key

/-- JavaScript property write `o[key] = v`: overwrite in place when the key
exists (keeping its position), append otherwise. -/
def setField (fields : List (String × JVal)) (key : String) (v : JVal) :
    List (String × JVal) :=
  if fields.any (fun p => p.1 = key) then
    fields.map (fun p => if p.1 = key then (key, v) else p)
  else
    fields ++ [(key, v)]

/-- JavaScript object spread `{...a, ...b}` / `Object.assign({}, a, b)`:
later keys win, first-occurrence positions are kept. -/
def mergeFields (a b : List (String × JVal)) : List (String × JVal) :=
  b.foldl (fun acc p => setField acc p.1 p.2) a

/-- Navigate a `JVal` along a list of object keys. -/
def getPath : JVal → List String → Option JVal
  | v, [] => some v
  | .obj fields, key :: rest =>
    match lookupField fields key with
    | some v => getPath v rest
    | none => none
  | _, _ :: _ => none

/-- Render an optional string the way a JavaScript optional-chaining read
renders it: the string itself, or `undefined`. -/
def optStrJ : Option String → JVal
  | some s => .str s
  | none => .undefV

/-- Render an optional integer (e.g. `_def.minLength?.value`). -/
def optNumJ : Option Int → JVal
  | some n => .num n
  | none => .undefV

/-- JavaScript `typeof`, restricted to the values representable here
(`typeof null` is the string "object", as in JavaScript). -/
def jsTypeof : JVal → String
  | .undefV => "undefined"
  | .null => "object"
  | .bool _ => "boolean"
  | .num _ => "number"
  | .str _ => "string"
  | .arr _ => "object"
  | .obj _ => "object"

/-- A numeric check attached to a zod number schema (`ZodNumericCheck`):
`min`/`max` carry a bound and an inclusivity flag; every other check kind
is irrelevant to the generator and collapsed into `other`. -/
inductive NumCheck where
  | min (value : Int) (inclusive : Bool)
  | max (value : Int) (inclusive : Bool)
  | other

/-- zod's `ZodNumber.minValue` accessor: the largest `min` bound, ignoring
inclusivity, `none` when no `min` check is present. -/
def minValue (checks : List NumCheck) : Option Int :=
  checks.foldl
    (fun acc c =>
      match c with
      | .min v _ =>
        match acc with
        | none => some v
        | some m => if v > m then some v else some m
      | _ => acc)
    none

/-- zod's `ZodNumber.maxValue` accessor: the smallest `max` bound. -/
def maxValue (checks : List NumCheck) : Option Int :=
  checks.foldl
    (fun acc c =>
      match c with
      | .max v _ =>
        match acc with
        | none => some v
        | some m => if v < m then some v else some m
      | _ => acc)
    none

/-- The `ZodOpenAPIMetadata` block attached by `.openapi(...)`: a
registration name, a description, an explicit OpenAPI `type` override
(field `ty` here, `type` being a Lean keyword), and the remaining
passthrough OpenAPI fields. -/
structure Metadata where
  nameF : Option String
  descriptionF : Option String
  ty : Option String
  extra : List (String × JVal)

/-- Source `buildMetadata`: `omitBy(omit(metadata, 'name'), isNil)` — drop
the registration name, keep every other non-nil field. -/
def buildMetadata (m : Metadata) : List (String × JVal) :=
  (match m.descriptionF with
   | some d => [("description", JVal.str d)]
   | none => [])
  ++ (match m.ty with
      | some t => [("type", JVal.str t)]
      | none => [])
  ++ m.extra.filter (fun p => !isNilJ p.2)

/-- A zod schema node: one constructor per `instanceof` branch of the
source dispatch, each carrying its structural children and the node's own
`_def.openapi` metadata.  `zUnknown` stands for any zod kind with no
branch in `toOpenAPISchema` (e.g. `ZodDate`, `ZodUnknown`).  The
`unknownKeys` of an object is its `_unknownKeys` policy string
("strip" / "strict" / "passthrough"). -/
inductive ZodSchema where
  | zNull (meta : Option Metadata)
  | zString (meta : Option Metadata)
  | zNumber (checks : List NumCheck) (meta : Option Metadata)
  | zBoolean (meta : Option Metadata)
  | zLiteral (value : JVal) (meta : Option Metadata)
  | zEnum (values : List String) (meta : Option Metadata)
  | zNativeEnum (values : List JVal) (meta : Option Metadata)
  | zObject (shape : List (String × ZodSchema)) (unknownKeys : String)
      (meta : Option Metadata)
  | zArray (item : ZodSchema) (minLength : Option Int) (maxLength : Option Int)
      (meta : Option Metadata)
  | zUnion (options : List ZodSchema) (meta : Option Metadata)
  | zIntersection (left : ZodSchema) (right : ZodSchema) (meta : Option Metadata)
  | zOptional (inner : ZodSchema) (meta : Option Metadata)
  | zNullable (inner : ZodSchema) (meta : Option Metadata)
  | zUnknown (meta : Option Metadata)

/-- The node's own `_def.openapi` block. -/
def openapiOf : ZodSchema → Option Metadata
  | .zNull m => m
  | .zString m => m
  | .zNumber _ m => m
  | .zBoolean m => m
  | .zLiteral _ m => m
  | .zEnum _ m => m
  | .zNativeEnum _ m => m
  | .zObject _ _ m => m
  | .zArray _ _ _ m => m
  | .zUnion _ m => m
  | .zIntersection _ _ m => m
  | .zOptional _ m => m
  | .zNullable _ m => m
  | .zUnknown m => m

/-- Source `unwrapOptional`: peel `ZodOptional`/`ZodNullable` wrappers. -/
def unwrapOptional : ZodSchema → ZodSchema
  | .zOptional inner _ => unwrapOptional inner
  | .zNullable inner _ => unwrapOptional inner
  | s => s

/-- Source `getMetadata` (also inlined in `generateSingleSchema`):
metadata of the node itself, else of the unwrapped inner node. -/
def getMetadata (zodSchema : ZodSchema) : Option Metadata :=
  match openapiOf zodSchema with
  | some m => some m
  | none => openapiOf (unwrapOptional zodSchema)

/-- Structural rendering of zod's `isOptional()` (`safeParse(undefined)`
succeeds): the validation library itself is outside the repository, so
only the wrapper / literal-undefined cases relevant to the generator are
modelled. -/
def isOptionalZ : ZodSchema → Bool
  | .zOptional _ _ => true
  | .zNullable inner _ => isOptionalZ inner
  | .zLiteral .undefV _ => true
  | _ => false

/-- Structural rendering of zod's `isNullable()` (`safeParse(null)`
succeeds), modelled for the wrapper / null / literal-null cases. -/
def isNullableZ : ZodSchema → Bool
  | .zNullable _ _ => true
  | .zOptional inner _ => isNullableZ inner
  | .zNull _ => true
  | .zLiteral .null _ => true
  | _ => false

/-- The three instance registries of `OpenAPIGenerator`. -/
structure GenState where
  schemaRefs : List (String × JVal)
  paramRefs : List (String × JVal)
  pathRefs : List (String × JVal)

/-- The empty registries a fresh generator starts with. -/
def emptyState : GenState := ⟨[], [], []⟩

/-- Source `flattenUnionTypes`: recursively flatten nested `ZodUnion`
options, pre-order and left to right.  The fuel argument only bounds the
recursion depth. -/
def flattenUnionTypes : Nat → ZodSchema → List ZodSchema
  | 0, schema => [schema]
  | fuel + 1, schema =>
    match schema with
    | .zUnion options _ => options.flatMap (flattenUnionTypes fuel)
    | _ => [schema]

/-- Source `flattenIntersectionTypes`: left subtree flattened before the
right. -/
def flattenIntersectionTypes : Nat → ZodSchema → List ZodSchema
  | 0, schema => [schema]
  | fuel + 1, schema =>
    match schema with
    | .zIntersection left right _ =>
      flattenIntersectionTypes fuel left ++ flattenIntersectionTypes fuel right
    | _ => [schema]

/-- Message of the unsupported-schema-kind error (the source appends the
JSON-serialized `_def` of the offending node). -/
def unsupportedMsg : String :=
  "Unknown zod object type, please specify `type` and other OpenAPI props using `ZodSchema.openapi`"

/-- Message of the missing-parameter-name error. -/
def noNameMsg : String :=
  "Unknown parameter name, please specify `name` and other OpenAPI props using `ZodSchema.openapi`"

/-- Message of the missing-configuration error in `generateDocs`. -/
def noConfigMsg : String := "No config was provided when creating the OpenAPIGenerator"

/-- Placeholder error signalling fuel exhaustion of the embedding (never
reached when the fuel exceeds the input's tree depth). -/
def fuelMsg : String := "out of fuel"

/-- JavaScript falsiness of an optional string: the empty string is falsy,
so `schemaName &&` treats it like an absent name. -/
def truthyName : Option String → Option String
  | some "" => none
  | n => n

/-- The type of the recursive schema mapper as seen by `toOpenAPISchema`
(schema, saveIfNew, registries in — fragment or error, registries out). -/
abbrev ChildGen := ZodSchema → Bool → GenState → Except String JVal × GenState

/-- Map a list of schemas with `gen`, threading the registries and
aborting on the first error (the `.map` calls inside `toOpenAPISchema`). -/
def genList (gen : ChildGen) :
    List ZodSchema → Bool → GenState → Except String (List JVal) × GenState
  | [], _, st => (.ok [], st)
  | s :: rest, saveIfNew, st =>
    match gen s saveIfNew st with
    | (.error e, st1) => (.error e, st1)
    | (.ok v, st1) =>
      match genList gen rest saveIfNew st1 with
      | (.error e, st2) => (.error e, st2)
      | (.ok vs, st2) => (.ok (v :: vs), st2)

/-- Map an object shape with `gen` (the `mapValues` call of the object
branch), producing the `properties` field list in declaration order. -/
def genProps (gen : ChildGen) :
    List (String × ZodSchema) → Bool → GenState →
    Except String (List (String × JVal)) × GenState
  | [], _, st => (.ok [], st)
  | (key, s) :: rest, saveIfNew, st =>
    match gen s saveIfNew st with
    | (.error e, st1) => (.error e, st1)
    | (.ok v, st1) =>
      match genProps gen rest saveIfNew st1 with
      | (.error e, st2) => (.error e, st2)
      | (.ok vs, st2) => (.ok ((key, v) :: vs), st2)

/-- Source `toOpenAPISchema`: the type-dispatch table.  `gen` is the
recursive mapper used for structural children (`this.generateSingleSchema`
in the source); the fuel only bounds the union/intersection flattening
depth.  The returned field list still contains `undefV`-valued fields: the
caller (`generateSingleSchema`) applies `omitBy(..., isUndefined)`. -/
def toOpenAPISchema (gen : ChildGen) (fuel : Nat) (zodSchema : ZodSchema)
    (isNullable : Bool) (hasOpenAPIType : Bool) (saveIfNew : Bool)
    (st : GenState) : Except String (List (String × JVal)) × GenState :=
  match zodSchema with
  | .zNull _ => (.ok [("type", .str "null")], st)
  | .zString _ =>
    (.ok [("type", .str "string"),
          ("nullable", if isNullable then .bool true else .undefV)], st)
  | .zNumber checks _ =>
    (.ok [("type", .str "number"),
          ("minimum", optNumJ (minValue checks)),
          ("maximum", optNumJ (maxValue checks)),
          ("nullable", if isNullable then .bool true else .undefV)], st)
  | .zLiteral v _ =>
    (.ok [("type", .str (jsTypeof v)),
          ("nullable", if isNullable then .bool true else .undefV),
          ("enum", .arr [v])], st)
  | .zEnum values _ =>
    (.ok [("type", .str "string"),
          ("nullable", if isNullable then .bool true else .undefV),
          ("enum", .arr (values.map JVal.str))], st)
  | .zNativeEnum values _ =>
    (.ok [("type", .str "string"),
          ("nullable", if isNullable then .bool true else .undefV),
          ("enum", .arr values)], st)
  | .zObject shape unknownKeys _ =>
    match genProps gen shape saveIfNew st with
    | (.error e, st1) => (.error e, st1)
    | (.ok props, st1) =>
      (.ok [("type", .str "object"),
            ("properties", .obj props),
            ("required", .arr (((shape.filter
                (fun p => !isOptionalZ p.2)).map
                (fun p => JVal.str p.1)))),
            ("additionalProperties",
              if unknownKeys = "passthrough" then .bool true else .undefV),
            ("nullable", if isNullable then .bool true else .undefV)], st1)
  | .zBoolean _ =>
    (.ok [("type", .str "boolean"),
          ("nullable", if isNullable then .bool true else .undefV)], st)
  | .zArray item minLength maxLength _ =>
    match gen item saveIfNew st with
    | (.error e, st1) => (.error e, st1)
    | (.ok itemsV, st1) =>
      (.ok [("type", .str "array"),
            ("items", itemsV),
            ("minItems", optNumJ minLength),
            ("maxItems", optNumJ maxLength)], st1)
  | .zUnion _ _ =>
    match genList gen (flattenUnionTypes fuel zodSchema) saveIfNew st with
    | (.error e, st1) => (.error e, st1)
    | (.ok vs, st1) => (.ok [("anyOf", .arr vs)], st1)
  | .zIntersection _ _ _ =>
    match genList gen (flattenIntersectionTypes fuel zodSchema) saveIfNew st with
    | (.error e, st1) => (.error e, st1)
    | (.ok vs, st1) => (.ok [("allOf", .arr vs)], st1)
  | .zOptional _ _ =>
    if hasOpenAPIType then (.ok [], st) else (.error unsupportedMsg, st)
  | .zNullable _ _ =>
    if hasOpenAPIType then (.ok [], st) else (.error unsupportedMsg, st)
  | .zUnknown _ =>
    if hasOpenAPIType then (.ok [], st) else (.error unsupportedMsg, st)

/-- Body of `generateSingleSchema(zodSchema, saveIfNew, withMetaData)`:
unwrap wrappers, resolve metadata, short-circuit to a `$ref` for an
already-registered name, otherwise dispatch, merge metadata, drop
`undefined` fields, and register the result when requested.  `gen` is the
recursive mapper used for structural children. -/
def generateSingleSchemaBody (gen : ChildGen) (fuel : Nat)
    (zodSchema : ZodSchema) (saveIfNew : Bool) (withMetaData : Bool)
    (st : GenState) : Except String JVal × GenState :=
  let innerSchema := unwrapOptional zodSchema
  let metadata :=
    match openapiOf zodSchema with
    | some m => some m
    | none => openapiOf innerSchema
  let schemaName := truthyName (metadata.bind (fun m => m.nameF))
  if (schemaName.bind (lookupField st.schemaRefs)).isSome then
    (.ok (.obj [("$ref", .str ("#/components/schemas/" ++ schemaName.getD ""))]),
     st)
  else
    match toOpenAPISchema gen fuel innerSchema (isNullableZ zodSchema)
        (metadata.bind (fun m => m.ty)).isSome saveIfNew st with
    | (.error e, st1) => (.error e, st1)
    | (.ok base, st1) =>
      let result := JVal.obj ((mergeFields base
        (if withMetaData then
          match metadata with
          | some m => buildMetadata m
          | none => []
        else [])).filter (fun p => !isUndefinedJ p.2))
      match schemaName with
      | some n =>
        if saveIfNew then
          (.ok result, { st1 with schemaRefs := setField st1.schemaRefs n result })
        else (.ok result, st1)
      | none => (.ok result, st1)

/-- Source `generateSingleSchema`, tied with the body above: the fuel only
makes the recursion structural. -/
def generateSingleSchema : Nat → ZodSchema → Bool → Bool → GenState →
    Except String JVal × GenState
  | 0, _, _, _, st => (.error fuelMsg, st)
  | fuel + 1, zodSchema, saveIfNew, withMetaData, st =>
    generateSingleSchemaBody
      (fun s sv st0 => generateSingleSchema fuel s sv true st0)
      fuel zodSchema saveIfNew withMetaData st

/-- Source `generateSingleParameter(zodSchema, location, saveIfNew,
externalName)`. -/
def generateSingleParameter (fuel : Nat) (zodSchema : ZodSchema)
    (location : String) (saveIfNew : Bool) (externalName : Option String)
    (st : GenState) : Except String JVal × GenState :=
  let metadata := getMetadata zodSchema
  let schemaName :=
    match externalName with
    | some n => some n
    | none => metadata.bind (fun m => m.nameF)
  match truthyName schemaName with
  | none => (.error noNameMsg, st)
  | some n =>
    match lookupField st.paramRefs n with
    | some _ =>
      (.ok (.obj [("$ref", .str ("#/components/parameters/" ++ n))]), st)
    | none =>
      let required := !isOptionalZ zodSchema && !isNullableZ zodSchema
      match generateSingleSchema fuel zodSchema false false st with
      | (.error e, st1) => (.error e, st1)
      | (.ok schemaV, st1) =>
        let result := JVal.obj (mergeFields
          [("in", .str location), ("name", .str n), ("schema", schemaV),
           ("required", .bool required)]
          (match metadata with
           | some m => buildMetadata m
           | none => []))
        if saveIfNew then
          (.ok result, { st1 with paramRefs := setField st1.paramRefs n result })
        else (.ok result, st1)

/-- The `request` part of a route definition. -/
structure RequestConfig where
  params : Option ZodSchema
  query : Option ZodSchema
  headers : Option (List ZodSchema)
  body : Option ZodSchema

/-- A `RouteConfig` definition. -/
structure RouteConfig where
  method : String
  path : String
  description : Option String
  summary : Option String
  request : Option RequestConfig
  response : ZodSchema

/-- Source `getBodyDoc`: `undefined` for an absent body schema, otherwise
a required `application/json` request body.  Note that the `description`
field is written even when the body metadata has no description — the
result then carries a `description` key bound to `undefined`. -/
def getBodyDoc (fuel : Nat) :
    Option ZodSchema → GenState → Except String JVal × GenState
  | none, st => (.ok .undefV, st)
  | some bodySchema, st =>
    match generateSingleSchema fuel bodySchema false true st with
    | (.error e, st1) => (.error e, st1)
    | (.ok schemaV, st1) =>
      let metadata := getMetadata bodySchema
      (.ok (.obj
        [("description", optStrJ (metadata.bind (fun m => m.descriptionF))),
         ("required", .bool true),
         ("content", .obj
           [("application/json", .obj [("schema", schemaV)])])]), st1)

/-- The per-property loop of `getParamsByLocation`: each property becomes
a parameter with the property name as `externalName` and
`saveIfNew = false`. -/
def genParamList (fuel : Nat) :
    List (String × ZodSchema) → String → GenState →
    Except String (List JVal) × GenState
  | [], _, st => (.ok [], st)
  | (propName, propSchema) :: rest, location, st =>
    match generateSingleParameter fuel propSchema location false (some propName) st with
    | (.error e, st1) => (.error e, st1)
    | (.ok v, st1) =>
      match genParamList fuel rest location st1 with
      | (.error e, st2) => (.error e, st2)
      | (.ok vs, st2) => (.ok (v :: vs), st2)

/-- Source `getParamsByLocation`: absent or non-object containers produce
no parameters. -/
def getParamsByLocation (fuel : Nat) (paramsSchema : Option ZodSchema)
    (location : String) (st : GenState) : Except String (List JVal) × GenState :=
  match paramsSchema with
  | none => (.ok [], st)
  | some s =>
    match s with
    | .zObject shape _ _ => genParamList fuel shape location st
    | _ => (.ok [], st)

/-- The header loop of `getParameters` (`saveIfNew = false`, no external
name). -/
def genHeaderList (fuel : Nat) :
    List ZodSchema → GenState → Except String (List JVal) × GenState
  | [], st => (.ok [], st)
  | h :: rest, st =>
    match generateSingleParameter fuel h "header" false none st with
    | (.error e, st1) => (.error e, st1)
    | (.ok v, st1) =>
      match genHeaderList fuel rest st1 with
      | (.error e, st2) => (.error e, st2)
      | (.ok vs, st2) => (.ok (v :: vs), st2)

/-- Source `getParameters`: path parameters, then query parameters, then
header parameters. -/
def getParameters (fuel : Nat) (request : Option RequestConfig)
    (st : GenState) : Except String (List JVal) × GenState :=
  match request with
  | none => (.ok [], st)
  | some req =>
    match getParamsByLocation fuel req.params "path" st with
    | (.error e, st1) => (.error e, st1)
    | (.ok pathParams, st1) =>
      match getParamsByLocation fuel req.query "query" st1 with
      | (.error e, st2) => (.error e, st2)
      | (.ok queryParams, st2) =>
        match genHeaderList fuel (req.headers.getD []) st2 with
        | (.error e, st3) => (.error e, st3)
        | (.ok headerParams, st3) =>
          (.ok (pathParams ++ queryParams ++ headerParams), st3)

/-- Source `generateSingleRoute`: build the operation object (description
and summary keys are written even when absent, i.e. bound to `undefined`),
merge it by method into the path registry. -/
def generateSingleRoute (fuel : Nat) (route : RouteConfig) (st : GenState) :
    Except String JVal × GenState :=
  match generateSingleSchema fuel route.response false true st with
  | (.error e, st1) => (.error e, st1)
  | (.ok responseSchema, st1) =>
    match getParameters fuel route.request st1 with
    | (.error e, st2) => (.error e, st2)
    | (.ok params, st2) =>
      match getBodyDoc fuel (route.request.bind (fun r => r.body)) st2 with
      | (.error e, st3) => (.error e, st3)
      | (.ok requestBody, st3) =>
        let operation := JVal.obj
          [("description", optStrJ route.description),
           ("summary", optStrJ route.summary),
           ("parameters", .arr params),
           ("requestBody", requestBody),
           ("responses", .obj
             [("200", .obj
               [("description",
                  optStrJ ((openapiOf route.response).bind
                    (fun m => m.descriptionF))),
                ("content", .obj
                  [("application/json", .obj
                    [("schema", responseSchema)])])])])]
        let existing :=
          match lookupField st3.pathRefs route.path with
          | some (JVal.obj fields) => fields
          | _ => []
        let newPathRefs := setField st3.pathRefs route.path
          (.obj (mergeFields existing [(route.method, operation)]))
        (.ok (.obj [(route.method, operation)]), { st3 with pathRefs := newPathRefs })

/-- One entry of the definitions list handed to the generator. -/
inductive Definition where
  | schemaDef (schema : ZodSchema)
  | parameterDef (location : String) (schema : ZodSchema)
  | routeDef (route : RouteConfig)

/-- Source `generateSingle`. -/
def generateSingle (fuel : Nat) (definition : Definition) (st : GenState) :
    Except String JVal × GenState :=
  match definition with
  | .parameterDef location schema =>
    generateSingleParameter fuel schema location true none st
  | .schemaDef schema => generateSingleSchema fuel schema true true st
  | .routeDef route => generateSingleRoute fuel route st

/-- The `definitions.forEach(...)` loop shared by `generateDocs` and
`generateComponents`: a thrown error aborts the remaining definitions. -/
def processDefinitions (fuel : Nat) :
    List Definition → GenState → Except String Unit × GenState
  | [], st => (.ok (), st)
  | d :: rest, st =>
    match generateSingle fuel d st with
    | (.error e, st1) => (.error e, st1)
    | (.ok _, st1) => processDefinitions fuel rest st1

/-- The document-level configuration, modelled as the field list that the
`{...this.config}` spread contributes (openapi, info, servers, ...). -/
abbrev DocConfig := List (String × JVal)

/-- Source `generateDocs`: fail before touching any definition when no
configuration was provided, otherwise process all definitions and spread
the configuration into the resulting document. -/
def generateDocs (fuel : Nat) (config : Option DocConfig)
    (definitions : List Definition) (st : GenState) :
    Except String JVal × GenState :=
  match config with
  | none => (.error noConfigMsg, st)
  | some cfg =>
    match processDefinitions fuel definitions st with
    | (.error e, st1) => (.error e, st1)
    | (.ok _, st1) =>
      (.ok (.obj (mergeFields cfg
        [("components", .obj
           [("schemas", .obj st1.schemaRefs),
            ("parameters", .obj st1.paramRefs)]),
         ("paths", .obj st1.pathRefs)])), st1)

/-- Source `generateComponents`: the configuration is never consulted
(the parameter mirrors the `config` field of the class and is ignored). -/
def generateComponents (fuel : Nat) (_config : Option DocConfig)
    (definitions : List Definition) (st : GenState) :
    Except String JVal × GenState :=
  match processDefinitions fuel definitions st with
  | (.error e, st1) => (.error e, st1)
  | (.ok _, st1) =>
    (.ok (.obj
      [("components", .obj
         [("schemas", .obj st1.schemaRefs),
          ("parameters", .obj st1.paramRefs)])]), st1)

/-- `OpenApiGeneratorV30Specifics.nullType`. -/
def nullType : List (String × JVal) := [("nullable", .bool true)]

/-- `OpenApiGeneratorV30Specifics.mapNullableOfArray`: for a nullable
alternatives list, append the null marker as one more alternative. -/
def mapNullableOfArray (objects : List JVal) (isNullable : Bool) : List JVal :=
  if isNullable then objects ++ [.obj nullType] else objects

/-- `OpenApiGeneratorV30Specifics.mapNullableType`. -/
def mapNullableType (ty : Option String) (isNullable : Bool) :
    List (String × JVal) :=
  mergeFields
    (match ty with
     | some t => [("type", .str t)]
     | none => [])
    (if isNullable then nullType else [])

/-- `OpenApiGeneratorV30Specifics.getNumberChecks`:
`Object.assign({}, ...checks.map(...))`. -/
def getNumberChecks (checks : List NumCheck) : List (String × JVal) :=
  checks.foldl
    (fun acc c =>
      mergeFields acc
        (match c with
         | .min v true => [("minimum", .num v)]
         | .min v false => [("minimum", .num v), ("exclusiveMinimum", .bool true)]
         | .max v true => [("maximum", .num v)]
         | .max v false => [("maximum", .num v), ("exclusiveMaximum", .bool true)]
         | .other => []))
    []

/-- A child mapper leaves the registries untouched when `saveIfNew` is
false. -/
def PreservesState (gen : ChildGen) : Prop :=
  ∀ s st, (gen s false st).2 = st

theorem genList_state (gen : ChildGen) (hgen : PreservesState gen) :
    ∀ l st, (genList gen l false st).2 = st := by
  intro l
  induction l with
  | nil => intro st; rfl
  | cons s rest ih =>
    intro st
    simp only [genList]
    split
    next e st1 hr =>
      have h := hgen s st
      rw [hr] at h
      exact h
    next v st1 hr =>
      have hst1 : st1 = st := by
        have h := hgen s st
        rw [hr] at h
        exact h
      split
      next e st2 hrec =>
        have h := ih st1
        rw [hrec] at h
        exact h.trans hst1
      next vs st2 hrec =>
        have h := ih st1
        rw [hrec] at h
        exact h.trans hst1

theorem genProps_state (gen : ChildGen) (hgen : PreservesState gen) :
    ∀ l st, (genProps gen l false st).2 = st := by
  intro l
  induction l with
  | nil => intro st; rfl
  | cons p rest ih =>
    intro st
    rcases p with ⟨key, s⟩
    simp only [genProps]
    split
    next e st1 hr =>
      have h := hgen s st
      rw [hr] at h
      exact h
    next v st1 hr =>
      have hst1 : st1 = st := by
        have h := hgen s st
        rw [hr] at h
        exact h
      split
      next e st2 hrec =>
        have h := ih st1
        rw [hrec] at h
        exact h.trans hst1
      next vs st2 hrec =>
        have h := ih st1
        rw [hrec] at h
        exact h.trans hst1

theorem toOpenAPISchema_state (gen : ChildGen) (hgen : PreservesState gen)
    (fuel : Nat) (zodSchema : ZodSchema) (isNullable hasOpenAPIType : Bool)
    (st : GenState) :
    (toOpenAPISchema gen fuel zodSchema isNullable hasOpenAPIType false st).2 = st := by
  cases zodSchema with
  | zObject shape unknownKeys meta =>
    simp only [toOpenAPISchema]
    split
    next e st1 hr =>
      have h := genProps_state gen hgen shape st
      rw [hr] at h
      exact h
    next props st1 hr =>
      have h := genProps_state gen hgen shape st
      rw [hr] at h
      exact h
  | zArray item minLength maxLength meta =>
    simp only [toOpenAPISchema]
    split
    next e st1 hr =>
      have h := hgen item st
      rw [hr] at h
      exact h
    next itemsV st1 hr =>
      have h := hgen item st
      rw [hr] at h
      exact h
  | zUnion options meta =>
    simp only [toOpenAPISchema]
    split
    next e st1 hr =>
      have h := genList_state gen hgen (flattenUnionTypes fuel (.zUnion options meta)) st
      rw [hr] at h
      exact h
    next vs st1 hr =>
      have h := genList_state gen hgen (flattenUnionTypes fuel (.zUnion options meta)) st
      rw [hr] at h
      exact h
  | zIntersection left right meta =>
    simp only [toOpenAPISchema]
    split
    next e st1 hr =>
      have h := genList_state gen hgen
        (flattenIntersectionTypes fuel (.zIntersection left right meta)) st
      rw [hr] at h
      exact h
    next vs st1 hr =>
      have h := genList_state gen hgen
        (flattenIntersectionTypes fuel (.zIntersection left right meta)) st
      rw [hr] at h
      exact h
  | zOptional inner meta => simp only [toOpenAPISchema]; split <;> rfl
  | zNullable inner meta => simp only [toOpenAPISchema]; split <;> rfl
  | zUnknown meta => simp only [toOpenAPISchema]; split <;> rfl
  | _ => rfl

theorem generateSingleSchemaBody_state (gen : ChildGen) (hgen : PreservesState gen)
    (fuel : Nat) (zodSchema : ZodSchema) (withMetaData : Bool) (st : GenState) :
    (generateSingleSchemaBody gen fuel zodSchema false withMetaData st).2 = st := by
  simp only [generateSingleSchemaBody]
  split
  · rfl
  · split
    next e st1 hr =>
      have h := toOpenAPISchema_state gen hgen fuel (unwrapOptional zodSchema)
        (isNullableZ zodSchema)
        (((match openapiOf zodSchema with
           | some m => some m
           | none => openapiOf (unwrapOptional zodSchema)).bind
            (fun m => m.ty)).isSome) st
      rw [hr] at h
      exact h
    next base st1 hr =>
      have hst1 : st1 = st := by
        have h := toOpenAPISchema_state gen hgen fuel (unwrapOptional zodSchema)
          (isNullableZ zodSchema)
          (((match openapiOf zodSchema with
             | some m => some m
             | none => openapiOf (unwrapOptional zodSchema)).bind
              (fun m => m.ty)).isSome) st
        rw [hr] at h
        exact h
      split <;> simpa using hst1

theorem generateSingleSchema_state :
    ∀ (fuel : Nat) (zodSchema : ZodSchema) (withMetaData : Bool) (st : GenState),
      (generateSingleSchema fuel zodSchema false withMetaData st).2 = st := by
  intro fuel
  induction fuel with
  | zero => intro s wm st; rfl
  | succ fuel ih =>
    intro s wm st
    have hgen : PreservesState (fun s sv st0 => generateSingleSchema fuel s sv true st0) :=
      fun s' st' => ih s' true st'
    exact generateSingleSchemaBody_state _ hgen fuel s wm st

theorem generateSingleParameter_state (fuel : Nat) (zodSchema : ZodSchema)
    (location : String) (externalName : Option String) (st : GenState) :
    (generateSingleParameter fuel zodSchema location false externalName st).2 = st := by
  simp only [generateSingleParameter]
  split
  · rfl
  · split
    · rfl
    · rcases hr : generateSingleSchema fuel zodSchema false false st with ⟨r, st1⟩
      have hst1 : st1 = st := by
        have h := generateSingleSchema_state fuel zodSchema false st
        rw [hr] at h
        exact h
      cases r <;> simpa using hst1

/-- The only errors the schema mapper itself can raise: fuel exhaustion
(an artifact of the embedding) or the unsupported-schema-kind error. -/
def SchemaErr (e : String) : Prop := e = fuelMsg ∨ e = unsupportedMsg

/-- A child mapper whose errors are schema-mapper errors. -/
def ErrBounded (gen : ChildGen) : Prop :=
  ∀ s sv st e, (gen s sv st).1 = .error e → SchemaErr e

theorem genList_err (gen : ChildGen) (hgen : ErrBounded gen) :
    ∀ l sv st e, (genList gen l sv st).1 = .error e → SchemaErr e := by
  intro l
  induction l with
  | nil => intro sv st e h; simp [genList] at h
  | cons s rest ih =>
    intro sv st e h
    simp only [genList] at h
    split at h
    next e' st' hr =>
      simp only [Except.error.injEq] at h
      subst h
      exact hgen s sv st e' (by rw [hr])
    next v st' hr =>
      split at h
      next e2 st2 hrec =>
        simp only [Except.error.injEq] at h
        subst h
        exact ih sv st' e2 (by rw [hrec])
      next vs st2 hrec => simp at h

theorem genProps_err (gen : ChildGen) (hgen : ErrBounded gen) :
    ∀ l sv st e, (genProps gen l sv st).1 = .error e → SchemaErr e := by
  intro l
  induction l with
  | nil => intro sv st e h; simp [genProps] at h
  | cons p rest ih =>
    intro sv st e h
    rcases p with ⟨key, s⟩
    simp only [genProps] at h
    split at h
    next e' st' hr =>
      simp only [Except.error.injEq] at h
      subst h
      exact hgen s sv st e' (by rw [hr])
    next v st' hr =>
      split at h
      next e2 st2 hrec =>
        simp only [Except.error.injEq] at h
        subst h
        exact ih sv st' e2 (by rw [hrec])
      next vs st2 hrec => simp at h

theorem toOpenAPISchema_err (gen : ChildGen) (hgen : ErrBounded gen)
    (fuel : Nat) (zodSchema : ZodSchema) (isNullable hasOpenAPIType sv : Bool)
    (st : GenState) (e : String) :
    (toOpenAPISchema gen fuel zodSchema isNullable hasOpenAPIType sv st).1 = .error e →
      SchemaErr e := by
  intro h
  cases zodSchema with
  | zObject shape unknownKeys meta =>
    simp only [toOpenAPISchema] at h
    split at h
    next e' st' hr =>
      simp only [Except.error.injEq] at h
      subst h
      exact genProps_err gen hgen shape sv st e' (by rw [hr])
    next props st' hr => simp at h
  | zArray item minLength maxLength meta =>
    simp only [toOpenAPISchema] at h
    split at h
    next e' st' hr =>
      simp only [Except.error.injEq] at h
      subst h
      exact hgen item sv st e' (by rw [hr])
    next itemsV st' hr => simp at h
  | zUnion options meta =>
    simp only [toOpenAPISchema] at h
    split at h
    next e' st' hr =>
      simp only [Except.error.injEq] at h
      subst h
      exact genList_err gen hgen _ sv st e' (by rw [hr])
    next vs st' hr => simp at h
  | zIntersection left right meta =>
    simp only [toOpenAPISchema] at h
    split at h
    next e' st' hr =>
      simp only [Except.error.injEq] at h
      subst h
      exact genList_err gen hgen _ sv st e' (by rw [hr])
    next vs st' hr => simp at h
  | zOptional inner meta =>
    simp only [toOpenAPISchema] at h
    split at h <;> simp_all [SchemaErr]
  | zNullable inner meta =>
    simp only [toOpenAPISchema] at h
    split at h <;> simp_all [SchemaErr]
  | zUnknown meta =>
    simp only [toOpenAPISchema] at h
    split at h <;> simp_all [SchemaErr]
  | zNull meta => simp [toOpenAPISchema] at h
  | zString meta => simp [toOpenAPISchema] at h
  | zNumber checks meta => simp [toOpenAPISchema] at h
  | zBoolean meta => simp [toOpenAPISchema] at h
  | zLiteral v meta => simp [toOpenAPISchema] at h
  | zEnum values meta => simp [toOpenAPISchema] at h
  | zNativeEnum values meta => simp [toOpenAPISchema] at h

theorem generateSingleSchemaBody_err (gen : ChildGen) (hgen : ErrBounded gen)
    (fuel : Nat) (zodSchema : ZodSchema) (sv wm : Bool) (st : GenState)
    (e : String) :
    (generateSingleSchemaBody gen fuel zodSchema sv wm st).1 = .error e →
      SchemaErr e := by
  intro h
  simp only [generateSingleSchemaBody] at h
  split at h
  · simp at h
  · split at h
    next e' st' hr =>
      simp only [Except.error.injEq] at h
      subst h
      exact toOpenAPISchema_err gen hgen fuel _ _ _ _ st e' (by rw [hr])
    next base st' hr =>
      split at h <;> [skip; simp at h]
      split at h <;> simp at h

theorem generateSingleSchema_err :
    ∀ (fuel : Nat) (zodSchema : ZodSchema) (sv wm : Bool) (st : GenState)
      (e : String),
      (generateSingleSchema fuel zodSchema sv wm st).1 = .error e → SchemaErr e := by
  intro fuel
  induction fuel with
  | zero =>
    intro s sv wm st e h
    simp only [generateSingleSchema] at h
    simp only [Except.error.injEq] at h
    exact Or.inl h.symm
  | succ fuel ih =>
    intro s sv wm st e h
    have hgen : ErrBounded (fun s sv st0 => generateSingleSchema fuel s sv true st0) :=
      fun s' sv' st' e' h' => ih s' sv' true st' e' h'
    exact generateSingleSchemaBody_err _ hgen fuel s sv wm st e h

/-- The formalisation of the emitted-object invariant claimed by the
specification: no object anywhere inside the value binds a key to the
value `undefined` (a bare `undefined` inside an array is not a key
binding and is therefore allowed). -/
inductive CleanVal : JVal → Prop where
  | undefV : CleanVal .undefV
  | null : CleanVal .null
  | bool (b : Bool) : CleanVal (.bool b)
  | num (n : Int) : CleanVal (.num n)
  | str (s : String) : CleanVal (.str s)
  | arr (xs : List JVal) : (∀ v ∈ xs, CleanVal v) → CleanVal (.arr xs)
  | obj (fields : List (String × JVal)) :
      (∀ p ∈ fields, p.2 ≠ JVal.undefV) → (∀ p ∈ fields, CleanVal p.2) →
      CleanVal (.obj fields)

/-- A metadata block whose passthrough values are themselves free of
`undefined`-valued keys (the generator only shallow-filters them). -/
def MetaClean : Option Metadata → Prop
  | none => True
  | some m => ∀ p ∈ m.extra, CleanVal p.2

/-- A schema all of whose metadata blocks and literal/enum payload values
are free of `undefined`-valued keys. -/
inductive SchemaClean : ZodSchema → Prop where
  | zNull (m : Option Metadata) : MetaClean m → SchemaClean (.zNull m)
  | zString (m : Option Metadata) : MetaClean m → SchemaClean (.zString m)
  | zNumber (checks : List NumCheck) (m : Option Metadata) :
      MetaClean m → SchemaClean (.zNumber checks m)
  | zBoolean (m : Option Metadata) : MetaClean m → SchemaClean (.zBoolean m)
  | zLiteral (v : JVal) (m : Option Metadata) :
      MetaClean m → CleanVal v → SchemaClean (.zLiteral v m)
  | zEnum (values : List String) (m : Option Metadata) :
      MetaClean m → SchemaClean (.zEnum values m)
  | zNativeEnum (values : List JVal) (m : Option Metadata) :
      MetaClean m → (∀ v ∈ values, CleanVal v) →
      SchemaClean (.zNativeEnum values m)
  | zObject (shape : List (String × ZodSchema)) (unknownKeys : String)
      (m : Option Metadata) :
      MetaClean m → (∀ p ∈ shape, SchemaClean p.2) →
      SchemaClean (.zObject shape unknownKeys m)
  | zArray (item : ZodSchema) (mn mx : Option Int) (m : Option Metadata) :
      MetaClean m → SchemaClean item → SchemaClean (.zArray item mn mx m)
  | zUnion (options : List ZodSchema) (m : Option Metadata) :
      MetaClean m → (∀ s ∈ options, SchemaClean s) →
      SchemaClean (.zUnion options m)
  | zIntersection (left right : ZodSchema) (m : Option Metadata) :
      MetaClean m → SchemaClean left → SchemaClean right →
      SchemaClean (.zIntersection left right m)
  | zOptional (inner : ZodSchema) (m : Option Metadata) :
      MetaClean m → SchemaClean inner → SchemaClean (.zOptional inner m)
  | zNullable (inner : ZodSchema) (m : Option Metadata) :
      MetaClean m → SchemaClean inner → SchemaClean (.zNullable inner m)
  | zUnknown (m : Option Metadata) : MetaClean m → SchemaClean (.zUnknown m)

theorem schemaClean_meta {s : ZodSchema} (hs : SchemaClean s) :
    MetaClean (openapiOf s) := by
  cases hs <;> simpa [openapiOf]

theorem schemaClean_unwrap : ∀ (s : ZodSchema), SchemaClean s →
    SchemaClean (unwrapOptional s)
  | .zOptional inner m, hs => by
    cases hs with
    | zOptional _ _ hm hi =>
      simpa [unwrapOptional] using schemaClean_unwrap inner hi
  | .zNullable inner m, hs => by
    cases hs with
    | zNullable _ _ hm hi =>
      simpa [unwrapOptional] using schemaClean_unwrap inner hi
  | .zNull m, hs => by simpa [unwrapOptional] using hs
  | .zString m, hs => by simpa [unwrapOptional] using hs
  | .zNumber checks m, hs => by simpa [unwrapOptional] using hs
  | .zBoolean m, hs => by simpa [unwrapOptional] using hs
  | .zLiteral v m, hs => by simpa [unwrapOptional] using hs
  | .zEnum values m, hs => by simpa [unwrapOptional] using hs
  | .zNativeEnum values m, hs => by simpa [unwrapOptional] using hs
  | .zObject shape unknownKeys m, hs => by simpa [unwrapOptional] using hs
  | .zArray item mn mx m, hs => by simpa [unwrapOptional] using hs
  | .zUnion options m, hs => by simpa [unwrapOptional] using hs
  | .zIntersection left right m, hs => by simpa [unwrapOptional] using hs
  | .zUnknown m, hs => by simpa [unwrapOptional] using hs

theorem lookupField_mem {fields : List (String × JVal)} {key : String}
    {v : JVal} (h : lookupField fields key = some v) : ∃ p ∈ fields, p.2 = v := by
  induction fields with
  | nil => simp [lookupField] at h
  | cons p rest ih =>
    rcases p with ⟨k, w⟩
    simp only [lookupField] at h
    split at h
    · exact ⟨(k, w), by simp, by simpa using h⟩
    · rcases ih h with ⟨q, hq, hqv⟩
      exact ⟨q, by simp [hq], hqv⟩

theorem setField_mem {fields : List (String × JVal)} {key : String}
    {v : JVal} {p : String × JVal} (h : p ∈ setField fields key v) :
    p ∈ fields ∨ p = (key, v) := by
  simp only [setField] at h
  split at h
  · rcases List.mem_map.mp h with ⟨q, hq, hqe⟩
    by_cases hk : q.1 = key
    · right
      rw [if_pos hk] at hqe
      exact hqe.symm
    · left
      rw [if_neg hk] at hqe
      exact hqe ▸ hq
  · rcases List.mem_append.mp h with hq | hq
    · exact Or.inl hq
    · exact Or.inr (by simpa using hq)

theorem mergeFields_mem {a b : List (String × JVal)} {p : String × JVal}
    (h : p ∈ mergeFields a b) : p ∈ a ∨ p ∈ b := by
  induction b generalizing a with
  | nil => exact Or.inl h
  | cons q rest ih =>
    simp only [mergeFields, List.foldl_cons] at h
    rcases ih h with h1 | h1
    · rcases setField_mem h1 with h2 | h2
      · exact Or.inl h2
      · right
        rw [h2]
        simp
    · right
      simp [h1]

theorem buildMetadata_clean {m : Metadata} (hm : MetaClean (some m)) :
    ∀ p ∈ buildMetadata m, p.2 ≠ JVal.undefV ∧ CleanVal p.2 := by
  intro p hp
  simp only [buildMetadata, List.append_assoc, List.mem_append] at hp
  rcases hp with hp | hp | hp
  · match hd : m.descriptionF with
    | some d =>
      rw [hd] at hp
      simp only [List.mem_singleton] at hp
      subst hp
      exact ⟨by simp, CleanVal.str d⟩
    | none =>
      rw [hd] at hp
      simp at hp
  · match hd : m.ty with
    | some t =>
      rw [hd] at hp
      simp only [List.mem_singleton] at hp
      subst hp
      exact ⟨by simp, CleanVal.str t⟩
    | none =>
      rw [hd] at hp
      simp at hp
  · rcases List.mem_filter.mp hp with ⟨hmem, hnil⟩
    refine ⟨?_, hm p hmem⟩
    intro hu
    rw [hu] at hnil
    simp [isNilJ] at hnil

theorem cleanVal_flag (b : Bool) :
    CleanVal (if b then JVal.bool true else .undefV) := by
  cases b
  · exact CleanVal.undefV
  · exact CleanVal.bool true

theorem cleanVal_optNum (o : Option Int) : CleanVal (optNumJ o) := by
  cases o with
  | none => exact CleanVal.undefV
  | some n => exact CleanVal.num n

theorem cleanVal_optStr (o : Option String) : CleanVal (optStrJ o) := by
  cases o with
  | none => exact CleanVal.undefV
  | some s => exact CleanVal.str s

theorem flattenUnionTypes_clean :
    ∀ (fuel : Nat) (s : ZodSchema), SchemaClean s →
      ∀ t ∈ flattenUnionTypes fuel s, SchemaClean t := by
  intro fuel
  induction fuel with
  | zero =>
    intro s hs t ht
    simp only [flattenUnionTypes, List.mem_singleton] at ht
    exact ht ▸ hs
  | succ fuel ih =>
    intro s hs t ht
    cases s
    case zUnion options m =>
      simp only [flattenUnionTypes, List.mem_flatMap] at ht
      rcases ht with ⟨o, ho, hto⟩
      cases hs with
      | zUnion _ _ hm hopts => exact ih o (hopts o ho) t hto
    all_goals
      simp only [flattenUnionTypes, List.mem_singleton] at ht
      exact ht ▸ hs

theorem flattenIntersectionTypes_clean :
    ∀ (fuel : Nat) (s : ZodSchema), SchemaClean s →
      ∀ t ∈ flattenIntersectionTypes fuel s, SchemaClean t := by
  intro fuel
  induction fuel with
  | zero =>
    intro s hs t ht
    simp only [flattenIntersectionTypes, List.mem_singleton] at ht
    exact ht ▸ hs
  | succ fuel ih =>
    intro s hs t ht
    cases s
    case zIntersection left right m =>
      simp only [flattenIntersectionTypes, List.mem_append] at ht
      cases hs with
      | zIntersection _ _ _ hm hl hr =>
        rcases ht with ht | ht
        · exact ih left hl t ht
        · exact ih right hr t ht
    all_goals
      simp only [flattenIntersectionTypes, List.mem_singleton] at ht
      exact ht ▸ hs

/-- A child mapper whose successful results are clean objects. -/
def CleanChild (gen : ChildGen) : Prop :=
  ∀ s sv st v, SchemaClean s → (gen s sv st).1 = .ok v →
    CleanVal v ∧ v ≠ JVal.undefV

theorem genList_clean (gen : ChildGen) (hgen : CleanChild gen) :
    ∀ l sv st vs, (∀ s ∈ l, SchemaClean s) →
      (genList gen l sv st).1 = .ok vs →
      ∀ v ∈ vs, CleanVal v ∧ v ≠ JVal.undefV := by
  intro l
  induction l with
  | nil =>
    intro sv st vs hcl h v hv
    simp only [genList, Except.ok.injEq] at h
    subst h
    simp at hv
  | cons s rest ih =>
    intro sv st vs hcl h v hv
    simp only [genList] at h
    split at h
    next e st1 hr => simp at h
    next w st1 hr =>
      split at h
      next e2 st2 hrec => simp at h
      next ws st2 hrec =>
        simp only [Except.ok.injEq] at h
        subst h
        rcases List.mem_cons.mp hv with hv | hv
        · subst hv
          exact hgen s sv st v (hcl s (by simp)) (by rw [hr])
        · exact ih sv st1 ws (fun s' hs' => hcl s' (by simp [hs']))
            (by rw [hrec]) v hv

theorem genProps_clean (gen : ChildGen) (hgen : CleanChild gen) :
    ∀ l sv st props, (∀ p ∈ l, SchemaClean p.2) →
      (genProps gen l sv st).1 = .ok props →
      ∀ p ∈ props, p.2 ≠ JVal.undefV ∧ CleanVal p.2 := by
  intro l
  induction l with
  | nil =>
    intro sv st props hcl h p hp
    simp only [genProps, Except.ok.injEq] at h
    subst h
    simp at hp
  | cons q rest ih =>
    intro sv st props hcl h p hp
    rcases q with ⟨key, s⟩
    simp only [genProps] at h
    split at h
    next e st1 hr => simp at h
    next w st1 hr =>
      split at h
      next e2 st2 hrec => simp at h
      next ws st2 hrec =>
        simp only [Except.ok.injEq] at h
        subst h
        rcases List.mem_cons.mp hp with hp | hp
        · subst hp
          have := hgen s sv st w (hcl (key, s) (by simp)) (by rw [hr])
          exact ⟨this.2, this.1⟩
        · exact ih sv st1 ws (fun q' hq' => hcl q' (by simp [hq']))
            (by rw [hrec]) p hp

theorem toOpenAPISchema_clean (gen : ChildGen) (hgen : CleanChild gen)
    (fuel : Nat) (zodSchema : ZodSchema) (isNullable hasOpenAPIType sv : Bool)
    (st : GenState) (fields : List (String × JVal))
    (hs : SchemaClean zodSchema)
    (h : (toOpenAPISchema gen fuel zodSchema isNullable hasOpenAPIType sv st).1
          = .ok fields) :
    ∀ p ∈ fields, CleanVal p.2 := by
  cases zodSchema with
  | zNull m =>
    simp only [toOpenAPISchema, Except.ok.injEq] at h
    subst h
    intro p hp
    simp only [List.mem_singleton] at hp
    subst hp
    exact CleanVal.str _
  | zString m =>
    simp only [toOpenAPISchema, Except.ok.injEq] at h
    subst h
    intro p hp
    simp only [List.mem_cons, List.not_mem_nil, or_false] at hp
    rcases hp with rfl | rfl
    · exact CleanVal.str _
    · exact cleanVal_flag isNullable
  | zNumber checks m =>
    simp only [toOpenAPISchema, Except.ok.injEq] at h
    subst h
    intro p hp
    simp only [List.mem_cons, List.not_mem_nil, or_false] at hp
    rcases hp with rfl | rfl | rfl | rfl
    · exact CleanVal.str _
    · exact cleanVal_optNum _
    · exact cleanVal_optNum _
    · exact cleanVal_flag isNullable
  | zBoolean m =>
    simp only [toOpenAPISchema, Except.ok.injEq] at h
    subst h
    intro p hp
    simp only [List.mem_cons, List.not_mem_nil, or_false] at hp
    rcases hp with rfl | rfl
    · exact CleanVal.str _
    · exact cleanVal_flag isNullable
  | zLiteral v m =>
    simp only [toOpenAPISchema, Except.ok.injEq] at h
    subst h
    intro p hp
    simp only [List.mem_cons, List.not_mem_nil, or_false] at hp
    rcases hp with rfl | rfl | rfl
    · exact CleanVal.str _
    · exact cleanVal_flag isNullable
    · refine CleanVal.arr _ ?_
      intro w hw
      simp only [List.mem_singleton] at hw
      subst hw
      cases hs with
      | zLiteral _ _ hm hv => exact hv
  | zEnum values m =>
    simp only [toOpenAPISchema, Except.ok.injEq] at h
    subst h
    intro p hp
    simp only [List.mem_cons, List.not_mem_nil, or_false] at hp
    rcases hp with rfl | rfl | rfl
    · exact CleanVal.str _
    · exact cleanVal_flag isNullable
    · refine CleanVal.arr _ ?_
      intro w hw
      rcases List.mem_map.mp hw with ⟨x, _, hx⟩
      exact hx ▸ CleanVal.str x
  | zNativeEnum values m =>
    simp only [toOpenAPISchema, Except.ok.injEq] at h
    subst h
    intro p hp
    simp only [List.mem_cons, List.not_mem_nil, or_false] at hp
    rcases hp with rfl | rfl | rfl
    · exact CleanVal.str _
    · exact cleanVal_flag isNullable
    · refine CleanVal.arr _ ?_
      intro w hw
      cases hs with
      | zNativeEnum _ _ hm hvals => exact hvals w hw
  | zObject shape unknownKeys m =>
    simp only [toOpenAPISchema] at h
    split at h
    next e st1 hr => simp at h
    next props st1 hr =>
      simp only [Except.ok.injEq] at h
      subst h
      have hshape : ∀ p ∈ shape, SchemaClean p.2 := by
        cases hs with
        | zObject _ _ _ hm hsh => exact hsh
      have hprops := genProps_clean gen hgen shape sv st props hshape (by rw [hr])
      intro p hp
      simp only [List.mem_cons, List.not_mem_nil, or_false] at hp
      rcases hp with rfl | rfl | rfl | rfl | rfl
      · exact CleanVal.str _
      · exact CleanVal.obj _ (fun q hq => (hprops q hq).1)
          (fun q hq => (hprops q hq).2)
      · refine CleanVal.arr _ ?_
        intro w hw
        rcases List.mem_map.mp hw with ⟨x, _, hx⟩
        exact hx ▸ CleanVal.str x.1
      · split
        · exact CleanVal.bool true
        · exact CleanVal.undefV
      · exact cleanVal_flag isNullable
  | zArray item minLength maxLength m =>
    simp only [toOpenAPISchema] at h
    split at h
    next e st1 hr => simp at h
    next itemsV st1 hr =>
      simp only [Except.ok.injEq] at h
      subst h
      have hitem : SchemaClean item := by
        cases hs with
        | zArray _ _ _ _ hm hi => exact hi
      have hclean := hgen item sv st itemsV hitem (by rw [hr])
      intro p hp
      simp only [List.mem_cons, List.not_mem_nil, or_false] at hp
      rcases hp with rfl | rfl | rfl | rfl
      · exact CleanVal.str _
      · exact hclean.1
      · exact cleanVal_optNum _
      · exact cleanVal_optNum _
  | zUnion options m =>
    simp only [toOpenAPISchema] at h
    split at h
    next e st1 hr => simp at h
    next vs st1 hr =>
      simp only [Except.ok.injEq] at h
      subst h
      have hflat := flattenUnionTypes_clean fuel (.zUnion options m) hs
      have hvs := genList_clean gen hgen _ sv st vs hflat (by rw [hr])
      intro p hp
      simp only [List.mem_singleton] at hp
      subst hp
      exact CleanVal.arr _ (fun w hw => (hvs w hw).1)
  | zIntersection left right m =>
    simp only [toOpenAPISchema] at h
    split at h
    next e st1 hr => simp at h
    next vs st1 hr =>
      simp only [Except.ok.injEq] at h
      subst h
      have hflat := flattenIntersectionTypes_clean fuel (.zIntersection left right m) hs
      have hvs := genList_clean gen hgen _ sv st vs hflat (by rw [hr])
      intro p hp
      simp only [List.mem_singleton] at hp
      subst hp
      exact CleanVal.arr _ (fun w hw => (hvs w hw).1)
  | zOptional inner m =>
    simp only [toOpenAPISchema] at h
    split at h
    · simp only [Except.ok.injEq] at h
      subst h
      simp
    · simp at h
  | zNullable inner m =>
    simp only [toOpenAPISchema] at h
    split at h
    · simp only [Except.ok.injEq] at h
      subst h
      simp
    · simp at h
  | zUnknown m =>
    simp only [toOpenAPISchema] at h
    split at h
    · simp only [Except.ok.injEq] at h
      subst h
      simp
    · simp at h

theorem mergedResult_clean {base extraF : List (String × JVal)}
    (hbase : ∀ p ∈ base, CleanVal p.2)
    (hextra : ∀ p ∈ extraF, CleanVal p.2) :
    CleanVal (JVal.obj ((mergeFields base extraF).filter
      (fun p => !isUndefinedJ p.2))) := by
  refine CleanVal.obj _ ?_ ?_
  · intro p hp
    have hkeep := (List.mem_filter.mp hp).2
    intro hu
    rw [hu] at hkeep
    simp [isUndefinedJ] at hkeep
  · intro p hp
    have hm := (List.mem_filter.mp hp).1
    rcases mergeFields_mem hm with h1 | h1
    · exact hbase p h1
    · exact hextra p h1

theorem mergedParam_clean {base extraF : List (String × JVal)}
    (hbase : ∀ p ∈ base, p.2 ≠ JVal.undefV ∧ CleanVal p.2)
    (hextra : ∀ p ∈ extraF, p.2 ≠ JVal.undefV ∧ CleanVal p.2) :
    CleanVal (JVal.obj (mergeFields base extraF)) := by
  refine CleanVal.obj _ ?_ ?_
  · intro p hp
    rcases mergeFields_mem hp with h1 | h1
    · exact (hbase p h1).1
    · exact (hextra p h1).1
  · intro p hp
    rcases mergeFields_mem hp with h1 | h1
    · exact (hbase p h1).2
    · exact (hextra p h1).2

theorem generateSingleSchemaBody_clean (gen : ChildGen) (hgen : CleanChild gen)
    (fuel : Nat) (zodSchema : ZodSchema) (sv wm : Bool) (st : GenState)
    (v : JVal) (hs : SchemaClean zodSchema)
    (h : (generateSingleSchemaBody gen fuel zodSchema sv wm st).1 = .ok v) :
    CleanVal v ∧ v ≠ JVal.undefV := by
  simp only [generateSingleSchemaBody] at h
  split at h
  · simp only [Except.ok.injEq] at h
    subst h
    refine ⟨CleanVal.obj _ ?_ ?_, by simp⟩
    · intro p hp
      simp only [List.mem_singleton] at hp
      subst hp
      simp
    · intro p hp
      simp only [List.mem_singleton] at hp
      subst hp
      exact CleanVal.str _
  · split at h
    next e st1 hr => simp at h
    next base st1 hr =>
      have hbase : ∀ p ∈ base, CleanVal p.2 :=
        toOpenAPISchema_clean gen hgen fuel _ _ _ _ st base
          (schemaClean_unwrap _ hs) (by rw [hr])
      have hresolved : MetaClean
          (match openapiOf zodSchema with
           | some m => some m
           | none => openapiOf (unwrapOptional zodSchema)) := by
        rcases ho : openapiOf zodSchema with _ | m
        · simp only []
          exact schemaClean_meta (schemaClean_unwrap _ hs)
        · simp only []
          have := schemaClean_meta hs
          rw [ho] at this
          exact this
      have hextra : ∀ p ∈ (if wm then
          (match (match openapiOf zodSchema with
                  | some m => some m
                  | none => openapiOf (unwrapOptional zodSchema)) with
           | some m => buildMetadata m
           | none => []) else ([] : List (String × JVal))),
          CleanVal p.2 := by
        split
        · split
          next m hm =>
            rw [hm] at hresolved
            intro p hp
            exact (buildMetadata_clean hresolved p hp).2
          next hm => simp
        · simp
      split at h <;>
        first
        | (split at h <;>
            (simp only [Except.ok.injEq] at h
             subst h
             exact ⟨mergedResult_clean hbase hextra, by simp⟩))
        | (simp only [Except.ok.injEq] at h
           subst h
           exact ⟨mergedResult_clean hbase hextra, by simp⟩)

theorem generateSingleSchema_clean :
    ∀ (fuel : Nat) (zodSchema : ZodSchema) (sv wm : Bool) (st : GenState)
      (v : JVal), SchemaClean zodSchema →
      (generateSingleSchema fuel zodSchema sv wm st).1 = .ok v →
      CleanVal v ∧ v ≠ JVal.undefV := by
  intro fuel
  induction fuel with
  | zero =>
    intro s sv wm st v _ h
    simp [generateSingleSchema] at h
  | succ fuel ih =>
    intro s sv wm st v hs h
    have hgen : CleanChild (fun s sv st0 => generateSingleSchema fuel s sv true st0) :=
      fun s' sv' st' v' hs' h' => ih s' sv' true st' v' hs' h'
    exact generateSingleSchemaBody_clean _ hgen fuel s sv wm st v hs h

theorem generateSingleParameter_clean (fuel : Nat) (zodSchema : ZodSchema)
    (location : String) (sv : Bool) (externalName : Option String)
    (st : GenState) (v : JVal) (hs : SchemaClean zodSchema)
    (h : (generateSingleParameter fuel zodSchema location sv externalName st).1
      = .ok v) :
    CleanVal v ∧ v ≠ JVal.undefV := by
  simp only [generateSingleParameter] at h
  split at h
  · simp at h
  · rename_i x0 n heqn
    split at h
    · simp only [Except.ok.injEq] at h
      subst h
      refine ⟨CleanVal.obj _ ?_ ?_, by simp⟩
      · intro p hp
        simp only [List.mem_singleton] at hp
        subst hp
        simp
      · intro p hp
        simp only [List.mem_singleton] at hp
        subst hp
        exact CleanVal.str _
    · split at h
      next e st1 hr => simp at h
      next schemaV st1 hr =>
        have hschema := generateSingleSchema_clean fuel zodSchema false false st
          schemaV hs (by rw [hr])
        have hbase : ∀ p ∈ [("in", JVal.str location),
            ("name", JVal.str n), ("schema", schemaV),
            ("required", JVal.bool (!isOptionalZ zodSchema && !isNullableZ zodSchema))],
            p.2 ≠ JVal.undefV ∧ CleanVal p.2 := by
          intro p hp
          simp only [List.mem_cons, List.not_mem_nil, or_false] at hp
          rcases hp with rfl | rfl | rfl | rfl
          · exact ⟨by simp, CleanVal.str _⟩
          · exact ⟨by simp, CleanVal.str _⟩
          · exact ⟨hschema.2, hschema.1⟩
          · exact ⟨by simp, CleanVal.bool _⟩
        have hmc : MetaClean (getMetadata zodSchema) := by
          unfold getMetadata
          rcases ho : openapiOf zodSchema with _ | m
          · simp only []
            exact schemaClean_meta (schemaClean_unwrap _ hs)
          · simp only []
            have := schemaClean_meta hs
            rw [ho] at this
            exact this
        have hextra : ∀ p ∈ (match getMetadata zodSchema with
            | some m => buildMetadata m
            | none => ([] : List (String × JVal))),
            p.2 ≠ JVal.undefV ∧ CleanVal p.2 := by
          split
          next m hm =>
            rw [hm] at hmc
            exact buildMetadata_clean hmc
          next hm => simp
        split at h <;>
          (simp only [Except.ok.injEq] at h
           subst h
           exact ⟨mergedParam_clean hbase hextra, by simp⟩)

/-- Whether a node is a `ZodUnion` (`instanceof ZodUnion`). -/
def isUnionZ : ZodSchema → Bool
  | .zUnion _ _ => true
  | _ => false

/-- Whether a node is a `ZodIntersection`. -/
def isIntersectionZ : ZodSchema → Bool
  | .zIntersection _ _ _ => true
  | _ => false

theorem flattenUnionTypes_nonUnion {s : ZodSchema} (h : isUnionZ s = false) :
    ∀ fuel, flattenUnionTypes fuel s = [s] := by
  intro fuel
  cases fuel with
  | zero => rfl
  | succ fuel => cases s <;> first | rfl | simp [isUnionZ] at h

theorem flattenIntersectionTypes_nonIntersection {s : ZodSchema}
    (h : isIntersectionZ s = false) :
    ∀ fuel, flattenIntersectionTypes fuel s = [s] := by
  intro fuel
  cases fuel with
  | zero => rfl
  | succ fuel => cases s <;> first | rfl | simp [isIntersectionZ] at h

theorem truthyName_some {n : String} (h : n ≠ "") :
    truthyName (some n) = some n := by
  unfold truthyName
  split
  · next heq =>
    rw [Option.some.injEq] at heq
    exact absurd heq h
  · rfl

theorem cleanVal_getPath : ∀ (ks : List String) (v w : JVal), CleanVal v →
    getPath v ks = some w → CleanVal w ∧ (ks ≠ [] → w ≠ JVal.undefV) := by
  intro ks
  induction ks with
  | nil =>
    intro v w hv h
    simp only [getPath, Option.some.injEq] at h
    exact ⟨h ▸ hv, by simp⟩
  | cons k rest ih =>
    intro v w hv h
    cases v with
    | obj fields =>
      simp only [getPath] at h
      split at h
      next v' hl =>
        rcases lookupField_mem hl with ⟨p, hp, hpv⟩
        have hne : v' ≠ JVal.undefV := by
          cases hv with
          | obj _ h1 _ => exact hpv ▸ h1 p hp
        have hcl : CleanVal v' := by
          cases hv with
          | obj _ _ h2 => exact hpv ▸ h2 p hp
        cases rest with
        | nil =>
          simp only [getPath, Option.some.injEq] at h
          exact ⟨h ▸ hcl, fun _ => h ▸ hne⟩
        | cons k2 rest2 =>
          have := ih v' w hcl h
          exact ⟨this.1, fun _ => this.2 (by simp)⟩
      next hl => simp at h
    | undefV => simp [getPath] at h
    | null => simp [getPath] at h
    | bool b => simp [getPath] at h
    | num n => simp [getPath] at h
    | str s => simp [getPath] at h
    | arr xs => simp [getPath] at h

/-- C10: with `saveIfNew = false` neither the schema mapper nor the
parameter mapper changes any of the three registries (the whole generator
state, `schemaRefs`/`paramRefs`/`pathRefs`, is returned unchanged, on the
success path and on the throw path alike), and therefore running the same
call twice in a row returns the identical — hence deep-equal — result. -/
theorem c10_saveIfNew_false_is_pure :
    ∀ (fuel : Nat) (zodSchema : ZodSchema) (withMetaData : Bool)
      (location : String) (externalName : Option String) (st : GenState),
      (generateSingleSchema fuel zodSchema false withMetaData st).2 = st ∧
      (generateSingleParameter fuel zodSchema location false externalName st).2 = st ∧
      generateSingleSchema fuel zodSchema false withMetaData
          ((generateSingleSchema fuel zodSchema false withMetaData st).2)
        = generateSingleSchema fuel zodSchema false withMetaData st ∧
      generateSingleParameter fuel zodSchema location false externalName
          ((generateSingleParameter fuel zodSchema location false externalName st).2)
        = generateSingleParameter fuel zodSchema location false externalName st := by
  intro fuel s wm loc ext st
  refine ⟨generateSingleSchema_state fuel s wm st,
          generateSingleParameter_state fuel s loc ext st, ?_, ?_⟩
  · rw [generateSingleSchema_state fuel s wm st]
  · rw [generateSingleParameter_state fuel s loc ext st]

/-- C5: `generateDocs` on a generator constructed without a document
configuration throws the missing-configuration error before touching any
definition (the registries are returned exactly as they were, so no
partial document is built), while `generateComponents` never consults the
configuration and, when the definitions process without error, returns
exactly the `{components: {schemas, parameters}}` shape. -/
theorem c5_generateDocs_requires_config :
    ∀ (fuel : Nat) (definitions : List Definition) (st : GenState)
      (cfg : DocConfig),
      generateDocs fuel none definitions st = (.error noConfigMsg, st) ∧
      generateComponents fuel (some cfg) definitions st
        = generateComponents fuel none definitions st ∧
      (∀ st1, processDefinitions fuel definitions st = (.ok (), st1) →
        generateComponents fuel (some cfg) definitions st
          = (.ok (.obj [("components", .obj
              [("schemas", .obj st1.schemaRefs),
               ("parameters", .obj st1.paramRefs)])]), st1)) := by
  intro fuel defs st cfg
  refine ⟨rfl, rfl, ?_⟩
  intro st1 h
  simp only [generateComponents]
  rw [h]

/-- The object fragment `{type: "object", properties: {id: {type:
"string"}}, required: ["id"]}` that registering the witness schema `User`
stores. -/
def userFrag : JVal :=
  .obj [("type", .str "object"),
        ("properties", .obj [("id", .obj [("type", .str "string")])]),
        ("required", .arr [.str "id"])]

/-- A schema registered under the name `User`. -/
def userSchema : ZodSchema :=
  .zObject [("id", .zString none)] "strip" (some ⟨some "User", none, none, []⟩)

/-- A structurally different schema carrying the same name `User`. -/
def userSchema2 : ZodSchema :=
  .zObject [("flag", .zBoolean none)] "strip" (some ⟨some "User", none, none, []⟩)

theorem c5_generateDocs_requires_config_witness :
    processDefinitions 5 [.schemaDef userSchema] emptyState
      = (.ok (), ⟨[("User", userFrag)], [], []⟩) ∧
    generateComponents 5 (some [("openapi", .str "3.0.0")])
        [.schemaDef userSchema] emptyState
      = (.ok (.obj [("components", .obj
          [("schemas", .obj [("User", userFrag)]),
           ("parameters", .obj ([] : List (String × JVal)))])]),
         ⟨[("User", userFrag)], [], []⟩) :=
  ⟨rfl,
   (c5_generateDocs_requires_config 5 [.schemaDef userSchema] emptyState
      [("openapi", .str "3.0.0")]).2.2 ⟨[("User", userFrag)], [], []⟩ rfl⟩

/-- C1: as soon as a fragment is stored under a name in the schema
registry, mapping any node at all whose resolved metadata name is that
name returns the `$ref` pointer and leaves the generator state — hence
the stored fragment — untouched; the node's own structure is irrelevant
(the theorem holds for every `zodSchema` with that resolved name). -/
theorem c1_registered_name_short_circuits :
    ∀ (fuel : Nat) (zodSchema : ZodSchema) (saveIfNew withMetaData : Bool)
      (st : GenState) (n : String) (frag : JVal),
      (getMetadata zodSchema).bind (fun m => m.nameF) = some n →
      n ≠ "" →
      lookupField st.schemaRefs n = some frag →
      generateSingleSchema (fuel + 1) zodSchema saveIfNew withMetaData st
        = (.ok (.obj [("$ref", .str ("#/components/schemas/" ++ n))]), st) ∧
      lookupField
        ((generateSingleSchema (fuel + 1) zodSchema saveIfNew withMetaData st).2).schemaRefs
        n = some frag := by
  intro fuel s sv wm st n frag hname hne hlook
  have hmain : generateSingleSchema (fuel + 1) s sv wm st
      = (.ok (.obj [("$ref", .str ("#/components/schemas/" ++ n))]), st) := by
    simp only [generateSingleSchema, generateSingleSchemaBody]
    rw [show (match openapiOf s with
              | some m => some m
              | none => openapiOf (unwrapOptional s)) = getMetadata s from rfl]
    rw [hname, truthyName_some hne]
    simp only [Option.some_bind, hlook, Option.isSome_some, if_true,
      Option.getD_some]
  exact ⟨hmain, by rw [hmain]; exact hlook⟩

theorem c1_registered_name_short_circuits_witness :
    ((getMetadata userSchema2).bind (fun m => m.nameF) = some "User") ∧
    lookupField (GenState.mk [("User", userFrag)] [] []).schemaRefs "User"
      = some userFrag ∧
    generateSingleSchema 5 userSchema2 true true ⟨[("User", userFrag)], [], []⟩
      = (.ok (.obj [("$ref", .str "#/components/schemas/User")]),
         ⟨[("User", userFrag)], [], []⟩) ∧
    lookupField
      ((generateSingleSchema 5 userSchema2 true true
        ⟨[("User", userFrag)], [], []⟩).2).schemaRefs "User" = some userFrag :=
  ⟨rfl, rfl,
   (c1_registered_name_short_circuits 4 userSchema2 true true
      ⟨[("User", userFrag)], [], []⟩ "User" userFrag rfl (by decide) rfl).1,
   (c1_registered_name_short_circuits 4 userSchema2 true true
      ⟨[("User", userFrag)], [], []⟩ "User" userFrag rfl (by decide) rfl).2⟩

/-- C6: for a node whose kind has no entry in the dispatch table
(`zUnknown`), the dispatch returns the empty fragment `{}` when the
resolved metadata carries an explicit `type` override, and otherwise the
mapper throws the unsupported-schema-kind error, which propagates out of
`generateDocs` and aborts the whole document (state unchanged).  The
no-registered-name hypothesis only rules out the `$ref` short-circuit. -/
theorem c6_unknown_kind_requires_override :
    ∀ (gen : ChildGen) (fuel fuel2 : Nat) (mm : Option Metadata)
      (isNullable sv wm : Bool) (st : GenState) (cfg : DocConfig),
      toOpenAPISchema gen fuel (.zUnknown mm) isNullable true sv st
        = (.ok [], st) ∧
      ((truthyName (mm.bind (fun m => m.nameF))).bind
          (lookupField st.schemaRefs) = none →
        ((mm.bind (fun m => m.ty)).isSome = true →
          generateSingleSchema (fuel2 + 1) (.zUnknown mm) false false st
            = (.ok (.obj []), st)) ∧
        ((mm.bind (fun m => m.ty)).isSome = false →
          generateSingleSchema (fuel2 + 1) (.zUnknown mm) sv wm st
            = (.error unsupportedMsg, st) ∧
          generateDocs (fuel2 + 1) (some cfg) [.schemaDef (.zUnknown mm)] st
            = (.error unsupportedMsg, st))) := by
  intro gen fuel fuel2 mm isN sv wm st cfg
  have hmeta : (match openapiOf (ZodSchema.zUnknown mm) with
                | some m => some m
                | none => openapiOf (unwrapOptional (ZodSchema.zUnknown mm)))
      = mm := by
    rcases mm with _ | m <;> rfl
  refine ⟨by simp [toOpenAPISchema], ?_⟩
  intro hunreg
  constructor
  · intro hty
    simp only [generateSingleSchema, generateSingleSchemaBody]
    rw [hmeta, hunreg]
    simp only [Option.isSome_none, Bool.false_eq_true, if_false]
    rw [hty]
    rw [show unwrapOptional (ZodSchema.zUnknown mm) = ZodSchema.zUnknown mm from rfl]
    rcases hsn : truthyName (mm.bind (fun m => m.nameF)) with _ | n <;>
      simp [toOpenAPISchema, mergeFields]
  · intro hty
    have herr : ∀ (sv' wm' : Bool),
        generateSingleSchema (fuel2 + 1) (.zUnknown mm) sv' wm' st
          = (.error unsupportedMsg, st) := by
      intro sv' wm'
      simp only [generateSingleSchema, generateSingleSchemaBody]
      rw [hmeta, hunreg]
      simp only [Option.isSome_none, Bool.false_eq_true, if_false]
      rw [hty]
      rw [show unwrapOptional (ZodSchema.zUnknown mm) = ZodSchema.zUnknown mm from rfl]
      simp [toOpenAPISchema]
    refine ⟨herr sv wm, ?_⟩
    simp only [generateDocs, processDefinitions, generateSingle]
    rw [herr true true]

/-- Metadata with a `type` override and no name, used by the C6 witness. -/
def c6Meta : Metadata := ⟨none, none, some "string", []⟩

theorem c6_unknown_kind_requires_override_witness :
    ((truthyName ((some c6Meta : Option Metadata).bind (fun m => m.nameF))).bind
        (lookupField emptyState.schemaRefs) = none) ∧
    ((some c6Meta : Option Metadata).bind (fun m => m.ty)).isSome = true ∧
    generateSingleSchema 5 (.zUnknown (some c6Meta)) false false emptyState
      = (.ok (.obj []), emptyState) ∧
    generateSingleSchema 5 (.zUnknown none) true true emptyState
      = (.error unsupportedMsg, emptyState) ∧
    generateDocs 5 (some [("openapi", .str "3.0.0")])
        [.schemaDef (.zUnknown none)] emptyState
      = (.error unsupportedMsg, emptyState) :=
  ⟨rfl, rfl,
   ((c6_unknown_kind_requires_override (fun s sv st0 => generateSingleSchema 0 s sv true st0)
      0 4 (some c6Meta) false false false emptyState []).2 rfl).1 rfl,
   (((c6_unknown_kind_requires_override (fun s sv st0 => generateSingleSchema 0 s sv true st0)
      0 4 none false true true emptyState [("openapi", .str "3.0.0")]).2 rfl).2 rfl).1,
   (((c6_unknown_kind_requires_override (fun s sv st0 => generateSingleSchema 0 s sv true st0)
      0 4 none false true true emptyState [("openapi", .str "3.0.0")]).2 rfl).2 rfl).2⟩

/-- C7: the parameter mapper fails with the missing-parameter-name error
exactly when neither an `externalName` nor a truthy metadata registration
name is available; when a name resolves (externalName first, metadata
name otherwise) that error is never raised — the registered case returns
the `$ref` pointer built from the resolved name. -/
theorem c7_parameter_name_resolution :
    ∀ (fuel : Nat) (zodSchema : ZodSchema) (location : String) (sv : Bool)
      (externalName : Option String) (st : GenState),
      (truthyName (match externalName with
          | some n => some n
          | none => (getMetadata zodSchema).bind (fun m => m.nameF)) = none →
        generateSingleParameter fuel zodSchema location sv externalName st
          = (.error noNameMsg, st)) ∧
      (∀ n, truthyName (match externalName with
          | some n => some n
          | none => (getMetadata zodSchema).bind (fun m => m.nameF)) = some n →
        ((generateSingleParameter fuel zodSchema location sv externalName st).1
          ≠ .error noNameMsg) ∧
        (∀ p, lookupField st.paramRefs n = some p →
          generateSingleParameter fuel zodSchema location sv externalName st
            = (.ok (.obj [("$ref", .str ("#/components/parameters/" ++ n))]),
               st))) := by
  intro fuel s loc sv ext st
  constructor
  · intro h
    simp only [generateSingleParameter]
    rw [h]
  · intro n hn
    constructor
    · simp only [generateSingleParameter]
      rw [hn]
      rcases hl : lookupField st.paramRefs n with _ | p
      · rcases hg : generateSingleSchema fuel s false false st with ⟨r, st1⟩
        cases r with
        | error e =>
          have hse : SchemaErr e :=
            generateSingleSchema_err fuel s false false st e (by rw [hg])
          simp only [hl, hg]
          rcases hse with he | he <;>
            (subst he
             intro hcontra
             exact absurd (Except.error.inj hcontra) (by decide))
        | ok v =>
          simp only [hl, hg]
          cases sv <;> simp
      · simp [hl]
    · intro p hp
      simp only [generateSingleParameter]
      rw [hn]
      simp only [hp]

theorem c7_parameter_name_resolution_witness :
    (truthyName (match (none : Option String) with
        | some n => some n
        | none => (getMetadata (.zString none)).bind (fun m => m.nameF)) = none) ∧
    generateSingleParameter 5 (.zString none) "path" true none emptyState
      = (.error noNameMsg, emptyState) ∧
    (truthyName (match (some "id" : Option String) with
        | some n => some n
        | none => (getMetadata (.zString none)).bind (fun m => m.nameF))
      = some "id") ∧
    ((generateSingleParameter 5 (.zString none) "query" false (some "id")
        emptyState).1 ≠ .error noNameMsg) ∧
    lookupField (GenState.mk [] [("id", .obj [("in", .str "query")])] []).paramRefs
      "id" = some (.obj [("in", .str "query")]) ∧
    generateSingleParameter 5 (.zString none) "query" false (some "id")
        ⟨[], [("id", .obj [("in", .str "query")])], []⟩
      = (.ok (.obj [("$ref", .str "#/components/parameters/id")]),
         ⟨[], [("id", .obj [("in", .str "query")])], []⟩) :=
  ⟨rfl,
   (c7_parameter_name_resolution 5 (.zString none) "path" true none emptyState).1 rfl,
   rfl,
   ((c7_parameter_name_resolution 5 (.zString none) "query" false (some "id")
      emptyState).2 "id" rfl).1,
   rfl,
   ((c7_parameter_name_resolution 5 (.zString none) "query" false (some "id")
      ⟨[], [("id", .obj [("in", .str "query")])], []⟩).2 "id" rfl).2
     (.obj [("in", .str "query")]) rfl⟩

/-- C3, counterexample: the generator's number branch maps the checks
`min(0, inclusive)` and `max(10, exclusive)` to `{type: "number",
minimum: 0, maximum: 10}` — the claimed `exclusiveMaximum: true` key is
not produced (the branch reads zod's `minValue`/`maxValue`, which forget
inclusivity). -/
theorem c3_number_checks_counterexample :
    (generateSingleSchema 10 (.zNumber [.min 0 true, .max 10 false] none)
        false true emptyState).1
      = .ok (.obj [("type", .str "number"), ("minimum", .num 0),
          ("maximum", .num 10)]) ∧
    (Except.ok (.obj [("type", .str "number"), ("minimum", .num 0),
        ("maximum", .num 10)]) : Except String JVal)
      ≠ .ok (.obj [("type", .str "number"), ("minimum", .num 0),
          ("maximum", .num 10), ("exclusiveMaximum", .bool true)]) :=
  ⟨rfl, by simp⟩

/-- C3, amended: the generator emits `{type: "number", minimum: 0,
maximum: 10}` with neither exclusive-bound key for those checks, while
the repository's `OpenApiGeneratorV30Specifics.getNumberChecks` helper
(not invoked by this generator's number branch) renders exactly the
claimed `{minimum: 0, maximum: 10, exclusiveMaximum: true}` with no
`exclusiveMinimum` key (and, merged with `mapNullableType`, the claimed
full object). -/
theorem c3_number_checks_amended :
    (generateSingleSchema 10 (.zNumber [.min 0 true, .max 10 false] none)
        false true emptyState).1
      = .ok (.obj [("type", .str "number"), ("minimum", .num 0),
          ("maximum", .num 10)]) ∧
    lookupField [("type", JVal.str "number"), ("minimum", .num 0),
        ("maximum", .num 10)] "exclusiveMinimum" = none ∧
    lookupField [("type", JVal.str "number"), ("minimum", .num 0),
        ("maximum", .num 10)] "exclusiveMaximum" = none ∧
    getNumberChecks [.min 0 true, .max 10 false]
      = [("minimum", .num 0), ("maximum", .num 10),
         ("exclusiveMaximum", .bool true)] ∧
    lookupField (getNumberChecks [.min 0 true, .max 10 false])
      "exclusiveMinimum" = none ∧
    mergeFields (mapNullableType (some "number") false)
        (getNumberChecks [.min 0 true, .max 10 false])
      = [("type", .str "number"), ("minimum", .num 0), ("maximum", .num 10),
         ("exclusiveMaximum", .bool true)] :=
  ⟨rfl, rfl, rfl, rfl, rfl, rfl⟩

/-- Whether a value is a JavaScript string. -/
def isStrJ : JVal → Bool
  | .str _ => true
  | _ => false

/-- C8, counterexample: mapping a native enum whose `Object.values` list
is `["A", 1]` (what a TypeScript numeric enum `{A = 1}` yields) emits the
enum list unchanged — it contains the number `1`, not only strings. -/
theorem c8_native_enum_counterexample :
    (generateSingleSchema 10 (.zNativeEnum [.str "A", .num 1] none)
        false true emptyState).1
      = .ok (.obj [("type", .str "string"),
          ("enum", .arr [.str "A", .num 1])]) ∧
    lookupField [("type", JVal.str "string"),
        ("enum", JVal.arr [.str "A", .num 1])] "enum"
      = some (.arr [.str "A", .num 1]) ∧
    ([JVal.str "A", JVal.num 1].all isStrJ) = false :=
  ⟨rfl, rfl, rfl⟩

/-- C8, amended: a native-enum schema maps to type `"string"` with the
`Object.values` list passed through unchanged into `enum` — numeric enum
member values stay numbers (and a TypeScript numeric enum's
reverse-mapping name strings are included); nothing is stringified. -/
theorem c8_native_enum_amended :
    ∀ (fuel : Nat) (values : List JVal) (sv wm : Bool) (st : GenState),
      generateSingleSchema (fuel + 1) (.zNativeEnum values none) sv wm st
        = (.ok (.obj [("type", .str "string"), ("enum", .arr values)]), st) := by
  intro fuel values sv wm st
  cases wm <;> rfl

/-- C2, counterexample: mapping the nullable union of a string schema and
a number schema yields `{anyOf: [...]}` with no `nullable` key at all —
not the claimed `{anyOf: [...], nullable: true}` (the union branch of
`toOpenAPISchema` ignores its `isNullable` argument). -/
theorem c2_nullable_union_counterexample :
    (generateSingleSchema 10
        (.zNullable (.zUnion [.zString none, .zNumber [] none] none) none)
        false true emptyState).1
      = .ok (.obj [("anyOf", .arr [.obj [("type", .str "string")],
          .obj [("type", .str "number")]])]) ∧
    (Except.ok (.obj [("anyOf", .arr [.obj [("type", .str "string")],
        .obj [("type", .str "number")]])]) : Except String JVal)
      ≠ .ok (.obj [("anyOf", .arr [.obj [("type", .str "string")],
          .obj [("type", .str "number")]]), ("nullable", .bool true)]) :=
  ⟨rfl, by simp⟩

/-- C2, amended: a nullable union of members A and B maps to
`{anyOf: [mapped A, mapped B]}` — the members are mapped unchanged (no
individual nullable decoration) and the union fragment itself carries no
`nullable` key; the version-specifics helper `mapNullableOfArray`
separately renders nullability of an alternatives list by appending
`{nullable: true}` as one more alternative, not as a sibling key. -/
theorem c2_nullable_union_amended :
    ∀ (fuel : Nat) (A B : ZodSchema) (sv : Bool) (st st1 st2 : GenState)
      (a b : JVal),
      isUnionZ A = false → isUnionZ B = false →
      generateSingleSchema (fuel + 1) A sv true st = (.ok a, st1) →
      generateSingleSchema (fuel + 1) B sv true st1 = (.ok b, st2) →
      generateSingleSchema (fuel + 2)
          (.zNullable (.zUnion [A, B] none) none) sv true st
        = (.ok (.obj [("anyOf", .arr [a, b])]), st2) ∧
      lookupField [("anyOf", JVal.arr [a, b])] "nullable" = none ∧
      mapNullableOfArray [a, b] true
        = [a, b, .obj [("nullable", .bool true)]] := by
  intro fuel A B sv st st1 st2 a b hA hB hgA hgB
  refine ⟨?_, rfl, rfl⟩
  have hflat : flattenUnionTypes (fuel + 1) (.zUnion [A, B] none) = [A, B] := by
    simp [flattenUnionTypes, flattenUnionTypes_nonUnion hA,
      flattenUnionTypes_nonUnion hB]
  have hlist : genList
      (fun s sv' st0 => generateSingleSchema (fuel + 1) s sv' true st0)
      [A, B] sv st = (.ok [a, b], st2) := by
    simp only [genList, hgA, hgB]
  have hTOS : toOpenAPISchema
      (fun s sv' st0 => generateSingleSchema (fuel + 1) s sv' true st0)
      (fuel + 1) (.zUnion [A, B] none) true false sv st
      = (.ok [("anyOf", .arr [a, b])], st2) := by
    simp only [toOpenAPISchema, hflat, hlist]
  have h0 : generateSingleSchema (fuel + 2)
      (.zNullable (.zUnion [A, B] none) none) sv true st
      = generateSingleSchemaBody
          (fun s sv' st0 => generateSingleSchema (fuel + 1) s sv' true st0)
          (fuel + 1) (.zNullable (.zUnion [A, B] none) none) sv true st := rfl
  rw [h0]
  simp only [generateSingleSchemaBody, unwrapOptional, openapiOf, isNullableZ]
  simp only [Option.none_bind,
    show truthyName (none : Option String) = none from rfl,
    Option.isSome_none, Bool.false_eq_true, if_false]
  rw [hTOS]
  simp [mergeFields, isUndefinedJ]

theorem c2_nullable_union_amended_witness :
    isUnionZ (.zString none) = false ∧
    generateSingleSchema 10 (.zString none) false true emptyState
      = (.ok (.obj [("type", .str "string")]), emptyState) ∧
    generateSingleSchema 10 (.zNumber [] none) false true emptyState
      = (.ok (.obj [("type", .str "number")]), emptyState) ∧
    generateSingleSchema 11
        (.zNullable (.zUnion [.zString none, .zNumber [] none] none) none)
        false true emptyState
      = (.ok (.obj [("anyOf", .arr [.obj [("type", .str "string")],
          .obj [("type", .str "number")]])]), emptyState) ∧
    mapNullableOfArray [.obj [("type", .str "string")],
        .obj [("type", .str "number")]] true
      = [.obj [("type", .str "string")], .obj [("type", .str "number")],
         .obj [("nullable", .bool true)]] :=
  ⟨rfl, rfl, rfl,
   (c2_nullable_union_amended 9 (.zString none) (.zNumber [] none) false
      emptyState emptyState emptyState (.obj [("type", .str "string")])
      (.obj [("type", .str "number")]) rfl rfl rfl rfl).1,
   (c2_nullable_union_amended 9 (.zString none) (.zNumber [] none) false
      emptyState emptyState emptyState (.obj [("type", .str "string")])
      (.obj [("type", .str "number")]) rfl rfl rfl rfl).2.2⟩

/-- C4: nested unions flatten into one `anyOf` list in pre-order
left-to-right order (`union(union(A,B),C)` → `anyOf: [A, B, C]`, no
nested `anyOf`), and nested intersections flatten into one `allOf` list
with the left subtree fully flattened before the right
(`intersection(A, intersection(B,C))` → `allOf: [A, B, C]`); the members
A, B, C are mapped individually, and the inner composite's metadata is
never consulted. -/
theorem c4_union_intersection_flattening :
    ∀ (fuel : Nat) (A B C : ZodSchema) (sv : Bool)
      (st st1 st2 st3 : GenState) (a b c : JVal)
      (mAB mBC : Option Metadata),
      isUnionZ A = false → isUnionZ B = false → isUnionZ C = false →
      isIntersectionZ A = false → isIntersectionZ B = false →
      isIntersectionZ C = false →
      generateSingleSchema (fuel + 2) A sv true st = (.ok a, st1) →
      generateSingleSchema (fuel + 2) B sv true st1 = (.ok b, st2) →
      generateSingleSchema (fuel + 2) C sv true st2 = (.ok c, st3) →
      generateSingleSchema (fuel + 3)
          (.zUnion [.zUnion [A, B] mAB, C] none) sv true st
        = (.ok (.obj [("anyOf", .arr [a, b, c])]), st3) ∧
      generateSingleSchema (fuel + 3)
          (.zIntersection A (.zIntersection B C mBC) none) sv true st
        = (.ok (.obj [("allOf", .arr [a, b, c])]), st3) := by
  intro fuel A B C sv st st1 st2 st3 a b c mAB mBC hA hB hC hiA hiB hiC
    hgA hgB hgC
  have hlist : genList
      (fun s sv' st0 => generateSingleSchema (fuel + 2) s sv' true st0)
      [A, B, C] sv st = (.ok [a, b, c], st3) := by
    simp only [genList, hgA, hgB, hgC]
  constructor
  · have hflat : flattenUnionTypes (fuel + 2)
        (.zUnion [.zUnion [A, B] mAB, C] none) = [A, B, C] := by
      rw [show flattenUnionTypes (fuel + 2) (.zUnion [.zUnion [A, B] mAB, C] none)
            = flattenUnionTypes (fuel + 1) (.zUnion [A, B] mAB)
              ++ (flattenUnionTypes (fuel + 1) C ++ []) from rfl]
      rw [show flattenUnionTypes (fuel + 1) (.zUnion [A, B] mAB)
            = flattenUnionTypes fuel A ++ (flattenUnionTypes fuel B ++ []) from rfl]
      rw [flattenUnionTypes_nonUnion hA, flattenUnionTypes_nonUnion hB,
        flattenUnionTypes_nonUnion hC]
      simp
    have hTOS : toOpenAPISchema
        (fun s sv' st0 => generateSingleSchema (fuel + 2) s sv' true st0)
        (fuel + 2) (.zUnion [.zUnion [A, B] mAB, C] none) false false sv st
        = (.ok [("anyOf", .arr [a, b, c])], st3) := by
      simp only [toOpenAPISchema, hflat, hlist]
    have h0 : generateSingleSchema (fuel + 3)
        (.zUnion [.zUnion [A, B] mAB, C] none) sv true st
        = generateSingleSchemaBody
            (fun s sv' st0 => generateSingleSchema (fuel + 2) s sv' true st0)
            (fuel + 2) (.zUnion [.zUnion [A, B] mAB, C] none) sv true st := rfl
    rw [h0]
    simp only [generateSingleSchemaBody, unwrapOptional, openapiOf, isNullableZ]
    simp only [Option.none_bind,
      show truthyName (none : Option String) = none from rfl,
      Option.isSome_none, Bool.false_eq_true, if_false]
    rw [hTOS]
    simp [mergeFields, isUndefinedJ]
  · have hflat : flattenIntersectionTypes (fuel + 2)
        (.zIntersection A (.zIntersection B C mBC) none) = [A, B, C] := by
      rw [show flattenIntersectionTypes (fuel + 2)
              (.zIntersection A (.zIntersection B C mBC) none)
            = flattenIntersectionTypes (fuel + 1) A
              ++ flattenIntersectionTypes (fuel + 1)
                  (.zIntersection B C mBC) from rfl]
      rw [show flattenIntersectionTypes (fuel + 1) (.zIntersection B C mBC)
            = flattenIntersectionTypes fuel B
              ++ flattenIntersectionTypes fuel C from rfl]
      rw [flattenIntersectionTypes_nonIntersection hiA,
        flattenIntersectionTypes_nonIntersection hiB,
        flattenIntersectionTypes_nonIntersection hiC]
      simp
    have hTOS : toOpenAPISchema
        (fun s sv' st0 => generateSingleSchema (fuel + 2) s sv' true st0)
        (fuel + 2) (.zIntersection A (.zIntersection B C mBC) none)
        false false sv st
        = (.ok [("allOf", .arr [a, b, c])], st3) := by
      simp only [toOpenAPISchema, hflat, hlist]
    have h0 : generateSingleSchema (fuel + 3)
        (.zIntersection A (.zIntersection B C mBC) none) sv true st
        = generateSingleSchemaBody
            (fun s sv' st0 => generateSingleSchema (fuel + 2) s sv' true st0)
            (fuel + 2) (.zIntersection A (.zIntersection B C mBC) none)
            sv true st := rfl
    rw [h0]
    simp only [generateSingleSchemaBody, unwrapOptional, openapiOf, isNullableZ]
    simp only [Option.none_bind,
      show truthyName (none : Option String) = none from rfl,
      Option.isSome_none, Bool.false_eq_true, if_false]
    rw [hTOS]
    simp [mergeFields, isUndefinedJ]

theorem c4_union_intersection_flattening_witness :
    isUnionZ (.zString none) = false ∧
    generateSingleSchema 9 (.zString none) false true emptyState
      = (.ok (.obj [("type", .str "string")]), emptyState) ∧
    generateSingleSchema 10
        (.zUnion [.zUnion [.zString none, .zBoolean none] none, .zNull none]
          none) false true emptyState
      = (.ok (.obj [("anyOf", .arr [.obj [("type", .str "string")],
          .obj [("type", .str "boolean")], .obj [("type", .str "null")]])]),
         emptyState) ∧
    generateSingleSchema 10
        (.zIntersection (.zString none)
          (.zIntersection (.zBoolean none) (.zNull none) none) none)
        false true emptyState
      = (.ok (.obj [("allOf", .arr [.obj [("type", .str "string")],
          .obj [("type", .str "boolean")], .obj [("type", .str "null")]])]),
         emptyState) :=
  ⟨rfl, rfl,
   (c4_union_intersection_flattening 7 (.zString none) (.zBoolean none)
      (.zNull none) false emptyState emptyState emptyState emptyState
      (.obj [("type", .str "string")]) (.obj [("type", .str "boolean")])
      (.obj [("type", .str "null")]) none none rfl rfl rfl rfl rfl rfl
      rfl rfl rfl).1,
   (c4_union_intersection_flattening 7 (.zString none) (.zBoolean none)
      (.zNull none) false emptyState emptyState emptyState emptyState
      (.obj [("type", .str "string")]) (.obj [("type", .str "boolean")])
      (.obj [("type", .str "null")]) none none rfl rfl rfl rfl rfl rfl
      rfl rfl rfl).2⟩

/-- The route used by the C9 counterexample: no description, no summary,
a JSON body schema without metadata. -/
def c9Route : RouteConfig :=
  ⟨"get", "/items", none, none,
   some ⟨none, none, none,
     some (.zObject [("x", .zString none)] "strip" none)⟩,
   .zObject [("ok", .zBoolean none)] "strip" none⟩

/-- The operation object `generateDocs` emits for `c9Route` — note the
`description`, `summary` and nested `description` keys bound to
`undefined`. -/
def c9Op : JVal := .obj
  [("description", .undefV), ("summary", .undefV),
   ("parameters", .arr []),
   ("requestBody", .obj [("description", .undefV), ("required", .bool true),
     ("content", .obj [("application/json", .obj [("schema",
        .obj [("type", .str "object"),
              ("properties", .obj [("x", .obj [("type", .str "string")])]),
              ("required", .arr [.str "x"])])])])]),
   ("responses", .obj [("200", .obj
     [("description", .undefV),
      ("content", .obj [("application/json", .obj [("schema",
        .obj [("type", .str "object"),
              ("properties", .obj [("ok", .obj [("type", .str "boolean")])]),
              ("required", .arr [.str "ok"])])])])])])]

/-- The whole document emitted for `c9Route`. -/
def c9Doc : JVal := .obj
  [("openapi", .str "3.0.0"),
   ("components", .obj [("schemas", .obj []), ("parameters", .obj [])]),
   ("paths", .obj [("/items", .obj [("get", c9Op)])])]

/-- C9, counterexample: the generated document for a plain route binds
the key `description` of the emitted request-body object (and the
operation's `description`/`summary` keys) to the value `undefined`, so
the document is not `CleanVal` — the claimed invariant fails. -/
theorem c9_undefined_keys_counterexample :
    (generateDocs 10 (some [("openapi", .str "3.0.0")]) [.routeDef c9Route]
        emptyState).1 = .ok c9Doc ∧
    getPath c9Doc ["paths", "/items", "get", "requestBody", "description"]
      = some .undefV ∧
    ¬ CleanVal c9Doc := by
  refine ⟨rfl, rfl, ?_⟩
  intro h
  have hw := cleanVal_getPath
    ["paths", "/items", "get", "requestBody", "description"] c9Doc .undefV h rfl
  exact hw.2 (by simp) rfl

/-- C9, amended: schema fragments and parameter objects never carry an
`undefined`-valued key (provided the schema's own metadata passthrough
values and literal/enum payloads are themselves free of such keys), but
the request-body builder does emit a `description` key bound to
`undefined` when the body metadata has no description — and route
operation objects likewise for `description`/`summary`. -/
theorem c9_undefined_keys_amended :
    (∀ (fuel : Nat) (s : ZodSchema) (sv wm : Bool) (st : GenState) (v : JVal),
       SchemaClean s → (generateSingleSchema fuel s sv wm st).1 = .ok v →
       CleanVal v) ∧
    (∀ (fuel : Nat) (s : ZodSchema) (location : String) (sv : Bool)
       (ext : Option String) (st : GenState) (v : JVal),
       SchemaClean s →
       (generateSingleParameter fuel s location sv ext st).1 = .ok v →
       CleanVal v) ∧
    (getBodyDoc 10 (some (.zString none)) emptyState).1
      = .ok (.obj [("description", .undefV), ("required", .bool true),
          ("content", .obj [("application/json",
            .obj [("schema", .obj [("type", .str "string")])])])]) :=
  ⟨fun fuel s sv wm st v hs h =>
     (generateSingleSchema_clean fuel s sv wm st v hs h).1,
   fun fuel s location sv ext st v hs h =>
     (generateSingleParameter_clean fuel s location sv ext st v hs h).1,
   rfl⟩

theorem c9_undefined_keys_amended_witness :
    SchemaClean userSchema ∧
    (generateSingleSchema 10 userSchema true true emptyState).1 = .ok userFrag ∧
    CleanVal userFrag ∧
    (generateSingleParameter 10 (.zString none) "query" false (some "id")
        emptyState).1
      = .ok (.obj [("in", .str "query"), ("name", .str "id"),
          ("schema", .obj [("type", .str "string")]),
          ("required", .bool true)]) ∧
    CleanVal (.obj [("in", .str "query"), ("name", .str "id"),
      ("schema", .obj [("type", .str "string")]),
      ("required", .bool true)]) := by
  have hstr : SchemaClean (ZodSchema.zString none) :=
    SchemaClean.zString none trivial
  have hclean : SchemaClean userSchema := by
    refine SchemaClean.zObject _ _ _ ?_ ?_
    · intro p hp
      simp at hp
    · intro p hp
      simp only [List.mem_singleton] at hp
      subst hp
      exact hstr
  exact ⟨hclean, rfl,
    c9_undefined_keys_amended.1 10 userSchema true true emptyState userFrag
      hclean rfl,
    rfl,
    c9_undefined_keys_amended.2.1 10 (.zString none) "query" false (some "id")
      emptyState _ hstr rfl⟩

end ZodToOpenApi
